import Mathlib

/-!
Verification of the DialogManager window/container manager
(editor-window-manager, DialogManager.js).

The manager's entity state is shallowly embedded: the JavaScript `Map`s
`windows` and `containers` become insertion-ordered association lists
(JS `Map.set` on an existing key updates in place, preserving position;
`Map.delete` removes the entry; `Map.values()` enumerates in insertion
order).  A container's tab order, which the source keeps as the DOM
child order of its tab bar, becomes an explicit list of window ids.
Pixel coordinates are modeled as integers (the source only produces
fractional coordinates from a float division when centering on an
odd-sized viewport, which no verified property depends on).  Purely
visual work (CSS classes, drop indicators, the minimized dock's DOM,
popup document bootstrapping) has no entity-state effect and is not
modeled.
-/

set_option maxHeartbeats 1000000

section AList

variable {α : Type} {β : Type} [DecidableEq α]

/-- Lookup in an association list: first entry with the given key. -/
def alookup : List (α × β) → α → Option β
  | [], _ => none
  | p :: rest, k => if p.1 = k then some p.2 else alookup rest k

/-- JS Map.set: update in place if the key is present, else append. -/
def aset : List (α × β) → α → β → List (α × β)
  | [], k, v => [(k, v)]
  | p :: rest, k, v => if p.1 = k then (k, v) :: rest else p :: aset rest k v

/-- JS Map.delete: remove entries with the given key. -/
def adelete : List (α × β) → α → List (α × β)
  | [], _ => []
  | p :: rest, k => if p.1 = k then adelete rest k else p :: adelete rest k

/-- Update the value stored at a key in place (used for mutation of a
record already held in the map). -/
def amodify (l : List (α × β)) (k : α) (f : β → β) : List (α × β) :=
  l.map fun p => if p.1 = k then (p.1, f p.2) else p

@[simp] theorem alookup_nil (k : α) : alookup ([] : List (α × β)) k = none := rfl

@[simp] theorem alookup_cons (a : α) (b : β) (l : List (α × β)) (k : α) :
    alookup ((a, b) :: l) k = if a = k then some b else alookup l k := rfl

@[simp] theorem amodify_nil (k : α) (f : β → β) : amodify ([] : List (α × β)) k f = [] := rfl

@[simp] theorem amodify_cons (a : α) (b : β) (l : List (α × β)) (k : α) (f : β → β) :
    amodify ((a, b) :: l) k f = (if a = k then (a, f b) else (a, b)) :: amodify l k f := by
  simp only [amodify, List.map_cons]

@[simp] theorem adelete_nil (k : α) : adelete ([] : List (α × β)) k = [] := rfl

@[simp] theorem adelete_cons (a : α) (b : β) (l : List (α × β)) (k : α) :
    adelete ((a, b) :: l) k = if a = k then adelete l k else (a, b) :: adelete l k := rfl

theorem alookup_eq_none_iff {l : List (α × β)} {k : α} :
    alookup l k = none ↔ k ∉ l.map Prod.fst := by
  induction l with
  | nil => simp
  | cons p rest ih =>
    obtain ⟨a, b⟩ := p
    by_cases h : a = k
    · subst h
      simp
    · simp only [alookup_cons, if_neg h, List.map_cons, List.mem_cons, ih]
      constructor
      · rintro hn (rfl | hm)
        · exact h rfl
        · exact hn hm
      · intro hn hm
        exact hn (Or.inr hm)

theorem alookup_isSome_iff {l : List (α × β)} {k : α} :
    (alookup l k).isSome = true ↔ k ∈ l.map Prod.fst := by
  rw [Option.isSome_iff_ne_none, ne_eq, alookup_eq_none_iff, not_not]

theorem mem_of_alookup_eq_some {l : List (α × β)} {k : α} {v : β}
    (h : alookup l k = some v) : (k, v) ∈ l := by
  induction l with
  | nil => simp at h
  | cons p rest ih =>
    obtain ⟨a, b⟩ := p
    by_cases hp : a = k
    · subst hp
      rw [alookup_cons, if_pos rfl] at h
      obtain rfl := Option.some.inj h
      exact List.mem_cons_self _ _
    · rw [alookup_cons, if_neg hp] at h
      exact List.mem_cons_of_mem _ (ih h)

theorem alookup_eq_some_of_mem {l : List (α × β)} {k : α} {v : β}
    (hnod : (l.map Prod.fst).Nodup) (h : (k, v) ∈ l) : alookup l k = some v := by
  induction l with
  | nil => simp at h
  | cons p rest ih =>
    obtain ⟨a, b⟩ := p
    simp only [List.map_cons, List.nodup_cons] at hnod
    rcases List.mem_cons.mp h with h1 | h1
    · injection h1 with h1a h1b
      subst h1a
      subst h1b
      simp
    · have hk : ¬ a = k := by
        intro he
        subst he
        exact hnod.1 (List.mem_map.mpr ⟨(a, v), h1, rfl⟩)
      rw [alookup_cons, if_neg hk]
      exact ih hnod.2 h1

theorem alookup_amodify (l : List (α × β)) (k : α) (f : β → β) (k' : α) :
    alookup (amodify l k f) k' =
      if k' = k then (alookup l k').map f else alookup l k' := by
  induction l with
  | nil => simp
  | cons p rest ih =>
    obtain ⟨a, b⟩ := p
    by_cases hak : a = k
    · subst hak
      by_cases hak' : a = k'
      · subst hak'
        simp [ih]
      · have hk'a : ¬ k' = a := fun h => hak' h.symm
        simp [hak', hk'a, ih]
    · by_cases hak' : a = k'
      · subst hak'
        have hk'k : ¬ a = k := hak
        simp [hak, Ne.symm hak]
      · simp [hak, hak', ih]

@[simp] theorem amodify_keys (l : List (α × β)) (k : α) (f : β → β) :
    (amodify l k f).map Prod.fst = l.map Prod.fst := by
  induction l with
  | nil => rfl
  | cons p rest ih =>
    obtain ⟨a, b⟩ := p
    by_cases hak : a = k <;> simp [hak, ih]

theorem mem_amodify_iff {l : List (α × β)} {k : α} {f : β → β} {q : α × β} :
    q ∈ amodify l k f ↔ ∃ p ∈ l, q = if p.1 = k then (p.1, f p.2) else p := by
  simp only [amodify, List.mem_map]
  constructor
  · rintro ⟨p, hp, rfl⟩
    exact ⟨p, hp, rfl⟩
  · rintro ⟨p, hp, rfl⟩
    exact ⟨p, hp, rfl⟩

theorem alookup_adelete (l : List (α × β)) (k k' : α) :
    alookup (adelete l k) k' = if k' = k then none else alookup l k' := by
  induction l with
  | nil => simp
  | cons p rest ih =>
    obtain ⟨a, b⟩ := p
    by_cases hak : a = k
    · subst hak
      by_cases hak' : a = k'
      · subst hak'
        simp [ih]
      · have hk'a : ¬ k' = a := fun h => hak' h.symm
        simp [hak', ih]
    · by_cases hak' : a = k'
      · subst hak'
        simp [hak, Ne.symm hak]
      · simp [hak, hak', ih]

theorem mem_adelete_iff {l : List (α × β)} {k : α} {q : α × β} :
    q ∈ adelete l k ↔ q ∈ l ∧ q.1 ≠ k := by
  induction l with
  | nil => simp
  | cons p rest ih =>
    obtain ⟨a, b⟩ := p
    by_cases hak : a = k
    · subst hak
      rw [adelete_cons, if_pos rfl, ih]
      constructor
      · rintro ⟨hq, hne⟩
        exact ⟨List.mem_cons_of_mem _ hq, hne⟩
      · rintro ⟨hq, hne⟩
        rcases List.mem_cons.mp hq with rfl | hq'
        · exact absurd rfl hne
        · exact ⟨hq', hne⟩
    · simp only [adelete_cons, if_neg hak, List.mem_cons, ih]
      constructor
      · rintro (rfl | ⟨hq, hne⟩)
        · exact ⟨Or.inl rfl, hak⟩
        · exact ⟨Or.inr hq, hne⟩
      · rintro ⟨rfl | hq, hne⟩
        · exact Or.inl rfl
        · exact Or.inr ⟨hq, hne⟩

theorem adelete_keys_sublist (l : List (α × β)) (k : α) :
    ((adelete l k).map Prod.fst).Sublist (l.map Prod.fst) := by
  induction l with
  | nil => simp
  | cons p rest ih =>
    obtain ⟨a, b⟩ := p
    by_cases hak : a = k
    · simp only [adelete_cons, if_pos hak, List.map_cons]
      exact ih.trans (List.sublist_cons_self _ _)
    · simp only [adelete_cons, if_neg hak, List.map_cons]
      exact ih.cons₂ _

theorem adelete_of_not_mem {l : List (α × β)} {k : α}
    (h : k ∉ l.map Prod.fst) : adelete l k = l := by
  induction l with
  | nil => rfl
  | cons p rest ih =>
    obtain ⟨a, b⟩ := p
    simp only [List.map_cons, List.mem_cons] at h
    push_neg at h
    have hak : ¬ a = k := fun he => h.1 he.symm
    simp [hak, ih h.2]

theorem adelete_length_of_mem {l : List (α × β)} {k : α}
    (hnod : (l.map Prod.fst).Nodup) (h : k ∈ l.map Prod.fst) :
    (adelete l k).length + 1 = l.length := by
  induction l with
  | nil => simp at h
  | cons p rest ih =>
    obtain ⟨a, b⟩ := p
    simp only [List.map_cons, List.nodup_cons] at hnod
    simp only [List.map_cons, List.mem_cons] at h
    by_cases hak : a = k
    · subst hak
      rw [adelete_cons, if_pos rfl, adelete_of_not_mem hnod.1]
      simp
    · have hk : k ∈ rest.map Prod.fst := by
        rcases h with h1 | h1
        · exact absurd h1.symm hak
        · exact h1
      rw [adelete_cons, if_neg hak]
      have := ih hnod.2 hk
      simp only [List.length_cons]
      omega

theorem aset_of_not_mem {l : List (α × β)} {k : α} (h : k ∉ l.map Prod.fst) (v : β) :
    aset l k v = l ++ [(k, v)] := by
  induction l with
  | nil => rfl
  | cons p rest ih =>
    obtain ⟨a, b⟩ := p
    simp only [List.map_cons, List.mem_cons] at h
    push_neg at h
    have hak : ¬ a = k := fun he => h.1 he.symm
    simp [aset, hak, ih h.2]

end AList

/-! ## Data model

`WindowData` mirrors the record built in `createWindow` (the DOM
`element`, `tabElement` and callback fields carry no entity state;
`popupWindow` is kept as the boolean `popupOpen`).  `ContainerData`
mirrors the record stored by `createNewContainer` plus the state the
source keeps on the container's DOM element: the tab order (child order
of the tab bar), the inline `left`/`top`/`width`/`height` style, the
inline `zIndex`, and whether `style.display` is `"none"` (`visible`).
-/

/-- Window ids are caller-supplied strings. -/
abbrev WId := String

/-- Container ids: the source generates `container-N` from a counter;
the id is modeled by the number `N`. -/
abbrev CId := Nat

structure WindowData where
  title : String
  content : String
  isMinimized : Bool
  isInPopup : Bool
  popupOpen : Bool
  containerId : Option CId
deriving DecidableEq

structure ContainerData where
  tabs : List WId
  activeWindowId : Option WId
  isMinimized : Bool
  visible : Bool
  left : Int
  top : Int
  width : Int
  height : Int
  zIndex : Int
deriving DecidableEq

/-- The DialogManager's entity state.  `viewW`/`viewH` model
`window.innerWidth` / `window.innerHeight`. -/
structure MgrState where
  windows : List (WId × WindowData)
  containers : List (CId × ContainerData)
  containerIdCounter : Nat
  viewW : Int
  viewH : Int
deriving DecidableEq

/-- A fresh manager (after `init`): no windows, no containers. -/
def initState (vw vh : Int) : MgrState :=
  { windows := [], containers := [], containerIdCounter := 0, viewW := vw, viewH := vh }

def lookupW (s : MgrState) (wid : WId) : Option WindowData :=
  alookup s.windows wid

def lookupC (s : MgrState) (cid : CId) : Option ContainerData :=
  alookup s.containers cid

def modifyW (s : MgrState) (wid : WId) (f : WindowData → WindowData) : MgrState :=
  { s with windows := amodify s.windows wid f }

def modifyC (s : MgrState) (cid : CId) (f : ContainerData → ContainerData) : MgrState :=
  { s with containers := amodify s.containers cid f }

/-- `Array.from(this.windows.values()).filter(w => w.containerId === containerId)`:
the windows homed to a container, in window-map insertion order. -/
def windowsOf (s : MgrState) (cid : CId) : List (WId × WindowData) :=
  s.windows.filter fun q => decide (q.2.containerId = some cid)

/-- `...filter(w => w.containerId === containerId && !w.isInPopup)`:
the non-popped-out windows homed to a container, in insertion order. -/
def visibleWindowsOf (s : MgrState) (cid : CId) : List (WId × WindowData) :=
  s.windows.filter fun q => decide (q.2.containerId = some cid ∧ q.2.isInPopup = false)

/-! ## Geometry engine -/

/-- The horizontal drag clamp from `makeDraggable`'s `onMouseMove`:
`newLeft = Math.max(-width + minVisible, Math.min(startLeft + deltaX, innerWidth - minVisible))`
with `minVisible = 50`. -/
def clampDragLeft (w vw startLeft deltaX : Int) : Int :=
  max (-w + 50) (min (startLeft + deltaX) (vw - 50))

/-- The vertical drag clamp from `makeDraggable`'s `onMouseMove`:
`newTop = Math.max(0, Math.min(startTop + deltaY, innerHeight - minVisible))`. -/
def clampDragTop (vh startTop deltaY : Int) : Int :=
  max 0 (min (startTop + deltaY) (vh - 50))

/-- `constrainToViewport` as a pure function of the rectangle: the four
edge checks of the source, in source order (right, left, bottom, top),
returning the corrected top-left corner. -/
def constrainToViewport (vw vh w left top : Int) : Int × Int :=
  let newLeft := left
  let newLeft := if left > vw - 50 then vw - 50 else newLeft
  let newLeft := if left + w < 50 then 50 - w else newLeft
  let newTop := top
  let newTop := if top > vh - 50 then vh - 50 else newTop
  let newTop := if top < 0 then 0 else newTop
  (newLeft, newTop)

/-- Apply `constrainToViewport` to a container element. -/
def constrainContainer (s : MgrState) (cid : CId) : MgrState :=
  modifyC s cid fun c =>
    let p := constrainToViewport s.viewW s.viewH c.width c.left c.top
    { c with left := p.1, top := p.2 }

/-! ## Tab and container primitives -/

/-- `windowData.tabElement.remove()` / the removal in `createTab`: a
window's tab element disappears from whichever tab bar held it. -/
def eraseTabEverywhere (s : MgrState) (wid : WId) : MgrState :=
  { s with containers := s.containers.map fun p => (p.1, { p.2 with tabs := p.2.tabs.erase wid }) }

/-- `createTab`: remove the window's existing tab if present, then
append a fresh tab at the end of the target container's tab bar. -/
def createTab (s : MgrState) (wid : WId) (cid : CId) : MgrState :=
  modifyC (eraseTabEverywhere s wid) cid fun c => { c with tabs := c.tabs ++ [wid] }

/-- `renderWindowInContainer`: point the window at the container, then
create its tab there (content-element moves and `updateTabVisibility`
are DOM-only). -/
def renderWindowInContainer (s : MgrState) (wid : WId) (cid : CId) : MgrState :=
  createTab (modifyW s wid fun w => { w with containerId := some cid }) wid cid

/-- `bringContainerToFront`: take the max inline z-index over all
containers (floored at the base 10000) and set this container one above it. -/
def bringContainerToFront (s : MgrState) (cid : CId) : MgrState :=
  let maxZ := s.containers.foldl (fun m p => max m p.2.zIndex) 10000
  modifyC s cid fun c => { c with zIndex := maxZ + 1 }

/-- `focusWindowInContainer`: record the active window and raise the
container (no existence check on the window id in the source). -/
def focusWindowInContainer (s : MgrState) (wid : WId) (cid : CId) : MgrState :=
  match lookupC s cid with
  | none => s
  | some _ =>
      bringContainerToFront (modifyC s cid fun c => { c with activeWindowId := some wid }) cid

/-- `updateContainerVisibility`: hide the container element iff every
window homed to it is popped out. -/
def updateContainerVisibility (s : MgrState) (cid : CId) : MgrState :=
  match lookupC s cid with
  | none => s
  | some _ => modifyC s cid fun c => { c with visible := !(visibleWindowsOf s cid).isEmpty }

/-- `cleanupContainerIfEmpty`: delete the container when no window is
homed to it, otherwise refresh its visibility. -/
def cleanupContainerIfEmpty (s : MgrState) (cid : CId) : MgrState :=
  match lookupC s cid with
  | none => s
  | some _ =>
      if (windowsOf s cid).isEmpty then
        { s with containers := adelete s.containers cid }
      else
        updateContainerVisibility s cid

/-- The container record allocated by `createNewContainer`: positioned
at the argument, or cascaded from the viewport center by
`(containers.size * 30) % 150` when no position is given. -/
def newContainerData (s : MgrState) (position : Option (Int × Int)) : ContainerData :=
  let lt : Int × Int :=
    match position with
    | some p => p
    | none =>
        let offset : Int := ((s.containers.length : Int) * 30) % 150
        (max 0 ((s.viewW - 600) / 2 + offset), max 0 ((s.viewH - 400) / 2 + offset))
  { tabs := [], activeWindowId := none, isMinimized := false, visible := true,
    left := lt.1, top := lt.2, width := 600, height := 400, zIndex := 10000 }

/-- `createNewContainer`: allocate `container-(counter+1)` with the
record above, appended to the container map.  Returns the new state and
the new container's id. -/
def createNewContainer (s : MgrState) (position : Option (Int × Int)) : MgrState × CId :=
  let cid := s.containerIdCounter + 1
  ({ s with containerIdCounter := cid,
            containers := s.containers ++ [(cid, newContainerData s position)] }, cid)

/-! ## Public operations -/

/-- `createWindow({id, title, content})`: register the window, open a
brand-new container for it, render it there, focus it. -/
def createWindow (s : MgrState) (wid : WId) (title content : String) : MgrState :=
  let w : WindowData :=
    { title := title, content := content, isMinimized := false, isInPopup := false,
      popupOpen := false, containerId := none }
  let s1 := { s with windows := aset s.windows wid w }
  let (s2, cid) := createNewContainer s1 none
  let s3 := renderWindowInContainer s2 wid cid
  focusWindowInContainer s3 wid cid

/-- `getWindow(id)`. -/
def getWindow (s : MgrState) (wid : WId) : Option WindowData :=
  lookupW s wid

/-- `closeWindow(id)`: drop the tab and the record, repair the
container's active window, clean the container up if now empty.
(Closing an open popup surface and the dock refresh are external or
display-only effects.) -/
def closeWindow (s : MgrState) (wid : WId) : MgrState :=
  match lookupW s wid with
  | none => s
  | some w =>
      let s1 := eraseTabEverywhere s wid
      let s2 := { s1 with windows := adelete s1.windows wid }
      let s3 :=
        match w.containerId with
        | none => s2
        | some cid =>
            match lookupC s2 cid with
            | none => s2
            | some c =>
                if c.activeWindowId = some wid then
                  modifyC s2 cid fun cc =>
                    { cc with activeWindowId := ((visibleWindowsOf s2 cid).head?).map Prod.fst }
                else s2
      match w.containerId with
      | none => s3
      | some cid => cleanupContainerIfEmpty s3 cid

/-- `moveWindowToContainer(windowId, targetContainerId)`: re-render the
window in the target, focus it there, clean up the source. -/
def moveWindowToContainer (s : MgrState) (wid : WId) (tcid : CId) : MgrState :=
  match lookupW s wid with
  | none => s
  | some w =>
      match w.containerId with
      | none => s
      | some scid =>
          match lookupC s scid, lookupC s tcid with
          | some _, some _ =>
              cleanupContainerIfEmpty
                (focusWindowInContainer (renderWindowInContainer s wid tcid) wid tcid) scid
          | _, _ => s

/-- `mergeContainers(sourceContainerId, targetContainerId)`: move every
window homed to the source (window-map enumeration order) into the
target, then focus the first moved window there. -/
def mergeContainers (s : MgrState) (scid tcid : CId) : MgrState :=
  if scid = tcid then s
  else
    match lookupC s scid, lookupC s tcid with
    | some _, some _ =>
        let moved := (windowsOf s scid).map Prod.fst
        let s1 := moved.foldl (fun st wid => moveWindowToContainer st wid tcid) s
        match moved with
        | [] => s1
        | w0 :: _ => focusWindowInContainer s1 w0 tcid
    | _, _ => s

/-- `minimizeContainer(containerId)`: hide the container and flag it and
every member window minimized (dock refresh is display-only). -/
def minimizeContainer (s : MgrState) (cid : CId) : MgrState :=
  match lookupC s cid with
  | none => s
  | some _ =>
      let s1 := modifyC s cid fun c => { c with visible := false, isMinimized := true }
      { s1 with
        windows := s1.windows.map fun q =>
          if q.2.containerId = some cid then (q.1, { q.2 with isMinimized := true }) else q }

/-- `restoreContainer(containerId)`: show the container, clear the
minimized flags, raise it. -/
def restoreContainer (s : MgrState) (cid : CId) : MgrState :=
  match lookupC s cid with
  | none => s
  | some _ =>
      let s1 := modifyC s cid fun c => { c with visible := true, isMinimized := false }
      let s2 :=
        { s1 with
          windows := s1.windows.map fun q =>
            if q.2.containerId = some cid then (q.1, { q.2 with isMinimized := false }) else q }
      bringContainerToFront s2 cid

/-- `updateWindowTitle(windowId, newTitle)` (tab label and popup title
updates are display-only). -/
def updateWindowTitle (s : MgrState) (wid : WId) (newTitle : String) : MgrState :=
  match lookupW s wid with
  | none => s
  | some _ => modifyW s wid fun w => { w with title := newTitle }

/-- `focusWindow(windowId)`: popup windows get an external focus call
(no entity-state change); minimized windows are restored (the
`restoreWindow` branch taken when `isMinimized`); otherwise focus in
the home container. -/
def focusWindow (s : MgrState) (wid : WId) : MgrState :=
  match lookupW s wid with
  | none => s
  | some w =>
      if w.isInPopup ∧ w.popupOpen then s
      else if w.isMinimized then
        match w.containerId with
        | none => s
        | some cid => focusWindowInContainer (restoreContainer s cid) wid cid
      else
        match w.containerId with
        | none => s
        | some cid => focusWindowInContainer s wid cid

/-- `restoreWindow(windowId)`: focus an open popup (external), restore
a minimized window's container and focus it, else fall through to
`focusWindow` (which here just focuses in the home container). -/
def restoreWindow (s : MgrState) (wid : WId) : MgrState :=
  match lookupW s wid with
  | none => s
  | some w =>
      if w.isInPopup ∧ w.popupOpen then s
      else if w.isMinimized then
        match w.containerId with
        | none => s
        | some cid => focusWindowInContainer (restoreContainer s cid) wid cid
      else focusWindow s wid

/-- DOM `insertBefore` on the tab bar: place `moved` immediately before
(or after) `target` in the list. -/
def insertAtTab (target moved : WId) (before : Bool) : List WId → List WId
  | [] => []
  | t :: rest =>
      if t = target then (if before then [moved, t] else [t, moved]) ++ rest
      else t :: insertAtTab target moved before rest

/-- The same-container branch of the tab `drop` handler followed by
`reorderTab`: guarded by dragged ≠ target (handler) and by both windows
being live in the same container (`reorderTab`), then the dragged tab is
spliced before/after the target tab. -/
def reorderTabDrop (s : MgrState) (draggedId targetId : WId) (before : Bool) : MgrState :=
  if draggedId = targetId then s
  else
    match lookupW s draggedId, lookupW s targetId with
    | some dw, some tw =>
        if dw.containerId = tw.containerId then
          match dw.containerId with
          | none => s
          | some cid =>
              modifyC s cid fun c =>
                { c with tabs := insertAtTab targetId draggedId before (c.tabs.erase draggedId) }
        else s
    | _, _ => s

/-- `popOutWindow(windowId)`, successful-popup path: flag the window as
popped out, refresh the source container's visibility, and if the popped
window was active focus the first remaining visible window.  (The popup
document itself is an external surface; its `beforeunload` reconciliation
is `onPopupClosed` below.) -/
def popOutWindow (s : MgrState) (wid : WId) : MgrState :=
  match lookupW s wid with
  | none => s
  | some w =>
      let s1 := modifyW s wid fun ww => { ww with isInPopup := true, popupOpen := true }
      match w.containerId with
      | none => s1
      | some scid =>
          match lookupC s1 scid with
          | none => s1
          | some c =>
              let s2 := updateContainerVisibility s1 scid
              if c.activeWindowId = some wid then
                match (visibleWindowsOf s2 scid).head? with
                | some q => focusWindowInContainer s2 q.1 scid
                | none => s2
              else s2

/-- The `beforeunload` handler registered by `popOutWindow`, for a window
that is still registered: clear the popup flags; if the home container
captured at detach time still exists, the content is re-appended there
(the window's `containerId` was never cleared) and the window is
re-focused when it is now the only visible tab; otherwise a fresh
container is created for it. -/
def onPopupClosed (s : MgrState) (wid : WId) (home : CId) : MgrState :=
  match lookupW s wid with
  | none => s
  | some _ =>
      let s1 := modifyW s wid fun ww => { ww with isInPopup := false, popupOpen := false }
      match lookupC s1 home with
      | some _ =>
          let visibleAfter := visibleWindowsOf s1 home
          let s2 := updateContainerVisibility s1 home
          if visibleAfter.length = 1 then focusWindowInContainer s2 wid home else s2
      | none =>
          let (s2, ncid) := createNewContainer s1 none
          focusWindowInContainer (renderWindowInContainer s2 wid ncid) wid ncid

/-- `popOutWindowToPosition(windowId, position)`: if at most one visible
window remains in the source container, just relocate the source
container to the drop position (constrained); otherwise open a new
container at the position (constrained), move the window into it, and
focus the first remaining visible window in the source. -/
def popOutWindowToPosition (s : MgrState) (wid : WId) (pos : Int × Int) : MgrState :=
  match lookupW s wid with
  | none => s
  | some w =>
      match w.containerId with
      | none => s
      | some scid =>
          match lookupC s scid with
          | none => s
          | some _ =>
              if (visibleWindowsOf s scid).length ≤ 1 then
                constrainContainer
                  (modifyC s scid fun c => { c with left := pos.1, top := pos.2 }) scid
              else
                let (s1, ncid) := createNewContainer s (some pos)
                let s2 := constrainContainer s1 ncid
                let s3 := renderWindowInContainer s2 wid ncid
                let s4 := focusWindowInContainer s3 wid ncid
                match (visibleWindowsOf s4 scid).head? with
                | some q => focusWindowInContainer s4 q.1 scid
                | none => s4

/-- `getBoundingClientRect` of a container element: the styled rectangle
when visible, the zero rectangle when `display: none`. -/
def rectOf (c : ContainerData) : Int × Int × Int × Int :=
  if c.visible then (c.left, c.top, c.width, c.height) else (0, 0, 0, 0)

/-- The hit test of `handleTabDragEnd`:
`mouseX >= rect.left && mouseX <= rect.right && mouseY >= rect.top && mouseY <= rect.bottom`. -/
def rectContains (r : Int × Int × Int × Int) (x y : Int) : Prop :=
  r.1 ≤ x ∧ x ≤ r.1 + r.2.2.1 ∧ r.2.1 ≤ y ∧ y ≤ r.2.1 + r.2.2.2

instance (r : Int × Int × Int × Int) (x y : Int) : Decidable (rectContains r x y) := by
  unfold rectContains
  infer_instance

/-- `handleTabDragEnd` for a drag of `wid` released at `(mx, my)` with no
drop having consumed the drag state: when the point is inside no
container's bounding rectangle, detach to `popOutWindowToPosition` at
the drop point offset by the drag offsets (300, 20); otherwise only
indicator cleanup happens. -/
def handleTabDragEnd (s : MgrState) (wid : WId) (mx my : Int) : MgrState :=
  let droppedOnContainer := s.containers.any fun p => decide (rectContains (rectOf p.2) mx my)
  if droppedOnContainer then s
  else popOutWindowToPosition s wid (mx - 300, my - 20)

/-! ## Header drag state machine (`makeDraggable`)

The closure variables of `makeDraggable` (`isDragging`, `hasMoved`,
`potentialMergeTarget`, `mergeHoverTimer`, `mergeEnabled`, the start
coordinates) become an explicit record.  Events carry an integer
timestamp; the `setTimeout(MERGE_HOVER_DELAY)` callback is modeled by a
stored deadline (`start time + 300`) that fires before any later event
is processed, the usual idealization of a single-threaded event loop.
-/

structure HeaderDrag where
  isDragging : Bool
  hasMoved : Bool
  startX : Int
  startY : Int
  startLeft : Int
  startTop : Int
  left : Int
  top : Int
  target : Option CId
  timerDeadline : Option Int
  mergeEnabled : Bool
deriving DecidableEq

/-- `onMouseDown` on the header: begin a drag at pointer `(x, y)` with the
container at `(l, t)` (the `bringContainerToFront` call acts on the
manager state, handled separately). -/
def headerDown (x y l t : Int) : HeaderDrag :=
  { isDragging := true, hasMoved := false, startX := x, startY := y,
    startLeft := l, startTop := t, left := l, top := t,
    target := none, timerDeadline := none, mergeEnabled := false }

/-- Run the pending dwell-timer callback if its deadline has passed:
`mergeEnabled = true` (the highlight it also adds is display-only). -/
def fireTimer (t : Int) (s : HeaderDrag) : HeaderDrag :=
  match s.timerDeadline with
  | some d => if d ≤ t then { s with mergeEnabled := true, timerDeadline := none } else s
  | none => s

/-- The merge-target hit test of `onMouseMove`: the last container in map
order (other than the dragged one) whose rectangle contains the pointer. -/
def findTarget (rects : List (CId × ContainerData)) (selfId : CId) (x y : Int) : Option CId :=
  rects.foldl
    (fun acc p =>
      if p.1 = selfId then acc
      else if rectContains (rectOf p.2) x y then some p.1 else acc)
    none

/-- `onMouseMove` at time `t`, pointer `(x, y)`: threshold detection,
viewport-clamped repositioning, and merge-candidate tracking with the
dwell timer.  `w` is the dragged container's width, `rects` the other
containers consulted by the hit test. -/
def headerMove (rects : List (CId × ContainerData)) (selfId : CId) (w vw vh : Int)
    (s : HeaderDrag) (t x y : Int) : HeaderDrag :=
  if s.isDragging = false then s
  else
    let s := fireTimer t s
    let deltaX := x - s.startX
    let deltaY := y - s.startY
    let hasMoved := s.hasMoved || (decide (5 < |deltaX|) || decide (5 < |deltaY|))
    let s := { s with hasMoved := hasMoved,
                      left := clampDragLeft w vw s.startLeft deltaX,
                      top := clampDragTop vh s.startTop deltaY }
    if hasMoved then
      let found := findTarget rects selfId x y
      if found ≠ s.target then
        let s := { s with timerDeadline := none, mergeEnabled := false, target := found }
        if found.isSome then { s with timerDeadline := some (t + 300) } else s
      else s
    else s

/-- What the `onMouseUp` handler decides to do with the manager state. -/
inductive ReleaseAction where
  | idle
  | snapBack
  | merge (target : CId)
deriving DecidableEq

/-- `onMouseUp` at time `t`: stop dragging, cancel the timer, and either
merge into a dwell-confirmed candidate or snap the container back into
the viewport; the candidate and flags are cleared either way. -/
def headerUp (s : HeaderDrag) (t : Int) : HeaderDrag × ReleaseAction :=
  if s.isDragging = false then (s, ReleaseAction.idle)
  else
    let s := fireTimer t s
    let s := { s with isDragging := false, timerDeadline := none }
    let act :=
      match s.target with
      | some tgt =>
          if s.hasMoved && s.mergeEnabled then ReleaseAction.merge tgt
          else ReleaseAction.snapBack
      | none => ReleaseAction.snapBack
    ({ s with target := none, mergeEnabled := false, hasMoved := false }, act)

/-- Apply a release decision to the manager state: a dwell-confirmed
candidate triggers `mergeContainers`, otherwise the dragged container is
constrained back into the viewport (nothing happens when no drag was in
progress). -/
def headerRelease (m : MgrState) (selfId : CId) (s : HeaderDrag) (t : Int) : MgrState :=
  match (headerUp s t).2 with
  | ReleaseAction.idle => m
  | ReleaseAction.snapBack => constrainContainer m selfId
  | ReleaseAction.merge tgt => mergeContainers m selfId tgt

/-! ## Referential integrity -/

/-- The window is homed: its `containerId` names a live container whose
tab bar carries the window's tab. -/
def homedB (s : MgrState) (wid : WId) (w : WindowData) : Bool :=
  match w.containerId with
  | some cid =>
      match lookupC s cid with
      | some c => c.tabs.contains wid
      | none => false
  | none => false

/-- Core well-formedness: unique keys in both maps; each container has a
duplicate-free tab order of ids no larger than the allocation counter,
every tab resolving to a live window homed to that container; and every
window's `containerId` points back at a container whose tab order
carries it. -/
def WF0 (s : MgrState) : Prop :=
  (s.windows.map Prod.fst).Nodup ∧
  (s.containers.map Prod.fst).Nodup ∧
  (∀ p ∈ s.containers,
      p.2.tabs.Nodup ∧ p.1 ≤ s.containerIdCounter ∧
      ∀ wid ∈ p.2.tabs, (lookupW s wid).map WindowData.containerId = some (some p.1)) ∧
  (∀ q ∈ s.windows, homedB s q.1 q.2 = true)

/-- Well-formed manager state: the core conditions plus every live
container being non-empty (the source destroys a container exactly when
its last window leaves it). -/
def WF (s : MgrState) : Prop :=
  WF0 s ∧ ∀ p ∈ s.containers, p.2.tabs ≠ []

instance (s : MgrState) : Decidable (WF0 s) := by
  unfold WF0
  infer_instance

instance (s : MgrState) : Decidable (WF s) := by
  unfold WF
  infer_instance

theorem homedB_iff {s : MgrState} {wid : WId} {w : WindowData} :
    homedB s wid w = true ↔
      ∃ cid c, w.containerId = some cid ∧ lookupC s cid = some c ∧ wid ∈ c.tabs := by
  unfold homedB
  rcases hcid : w.containerId with _ | cid
  · simp
  · rcases hc : lookupC s cid with _ | c
    · simp [hc]
    · simp [hc]

theorem resolves_iff {s : MgrState} {wid : WId} {cid : CId} :
    (lookupW s wid).map WindowData.containerId = some (some cid) ↔
      ∃ w, lookupW s wid = some w ∧ w.containerId = some cid := by
  rcases h : lookupW s wid with _ | w
  · simp
  · simp

/-! ## Geometry claims -/

/-- Claim C9: `constrainToViewport` is idempotent — applying it a second
time to the rectangle it produced changes nothing — and its output
satisfies `top ≥ 0`, `top ≤ viewportHeight - 50`, `left ≤ viewportWidth - 50`
and `left + width ≥ 50`, so at least `minVisible = 50` pixels remain
reachable on the left, right and bottom edges (for a viewport and
container at least `minVisible` wide/tall). -/
theorem constrainToViewport_idem_bounds (vw vh w l t : Int)
    (hw : 50 ≤ w) (hvw : 50 ≤ vw) (hvh : 50 ≤ vh) :
    constrainToViewport vw vh w (constrainToViewport vw vh w l t).1
        (constrainToViewport vw vh w l t).2 = constrainToViewport vw vh w l t ∧
    0 ≤ (constrainToViewport vw vh w l t).2 ∧
    (constrainToViewport vw vh w l t).2 ≤ vh - 50 ∧
    (constrainToViewport vw vh w l t).1 ≤ vw - 50 ∧
    50 ≤ (constrainToViewport vw vh w l t).1 + w := by
  simp only [constrainToViewport]
  split_ifs <;> simp_all <;> omega

/-- Witness for C9 at a concrete rectangle. -/
theorem constrainToViewport_idem_bounds_witness :
    constrainToViewport 1000 800 600
        (constrainToViewport 1000 800 600 1200 (-30)).1
        (constrainToViewport 1000 800 600 1200 (-30)).2 =
      constrainToViewport 1000 800 600 1200 (-30) ∧
    0 ≤ (constrainToViewport 1000 800 600 1200 (-30)).2 ∧
    (constrainToViewport 1000 800 600 1200 (-30)).2 ≤ 800 - 50 ∧
    (constrainToViewport 1000 800 600 1200 (-30)).1 ≤ 1000 - 50 ∧
    50 ≤ (constrainToViewport 1000 800 600 1200 (-30)).1 + 600 :=
  constrainToViewport_idem_bounds 1000 800 600 1200 (-30)
    (by decide) (by decide) (by decide)

theorem clampDragLeft_lower (w vw startLeft dx : Int) :
    -(w - 50) ≤ clampDragLeft w vw startLeft dx := by
  have h := le_max_left (-w + 50) (min (startLeft + dx) (vw - 50))
  unfold clampDragLeft
  omega

theorem clampDragLeft_upper (w vw startLeft dx : Int) (h : 100 ≤ w + vw) :
    clampDragLeft w vw startLeft dx ≤ vw - 50 := by
  unfold clampDragLeft
  exact max_le (by omega) (min_le_right _ _)

theorem clampDragTop_lower (vh startTop dy : Int) : 0 ≤ clampDragTop vh startTop dy :=
  le_max_left _ _

theorem clampDragTop_upper (vh startTop dy : Int) (h : 50 ≤ vh) :
    clampDragTop vh startTop dy ≤ vh - 50 := by
  unfold clampDragTop
  exact max_le (by omega) (min_le_right _ _)

/-- The pointer-move handler always stores the clamped position, whatever
branch the merge-candidate logic takes. -/
theorem headerMove_position (rects : List (CId × ContainerData)) (selfId : CId)
    (w vw vh : Int) (s : HeaderDrag) (t x y : Int) (hd : s.isDragging = true) :
    (headerMove rects selfId w vw vh s t x y).left
        = clampDragLeft w vw s.startLeft (x - s.startX) ∧
    (headerMove rects selfId w vw vh s t x y).top
        = clampDragTop vh s.startTop (y - s.startY) := by
  unfold headerMove fireTimer
  rcases htd : s.timerDeadline with _ | d <;>
    simp only [hd, Bool.true_eq_false, if_false] <;>
    split_ifs <;> simp_all

/-- Claim C8: during a header drag every pointer-move clamps the stored
position so that at least 50 pixels stay in the viewport on each axis:
the new left lies in `[-(width - 50), viewportWidth - 50]` and the new
top in `[0, viewportHeight - 50]`; the axes clamp independently (each
coordinate is a function of its own axis' inputs only), and a
600-pixel-wide container can never be pushed left of `-550`. -/
theorem headerDrag_clamps_to_viewport (rects : List (CId × ContainerData)) (selfId : CId)
    (w vw vh : Int) (s : HeaderDrag) (t x y : Int)
    (hd : s.isDragging = true) (hwvw : 100 ≤ w + vw) (hvh : 50 ≤ vh) :
    (headerMove rects selfId w vw vh s t x y).left
        = clampDragLeft w vw s.startLeft (x - s.startX) ∧
    (headerMove rects selfId w vw vh s t x y).top
        = clampDragTop vh s.startTop (y - s.startY) ∧
    -(w - 50) ≤ (headerMove rects selfId w vw vh s t x y).left ∧
    (headerMove rects selfId w vw vh s t x y).left ≤ vw - 50 ∧
    0 ≤ (headerMove rects selfId w vw vh s t x y).top ∧
    (headerMove rects selfId w vw vh s t x y).top ≤ vh - 50 ∧
    (w = 600 → -550 ≤ (headerMove rects selfId w vw vh s t x y).left) := by
  obtain ⟨hl, ht⟩ := headerMove_position rects selfId w vw vh s t x y hd
  refine ⟨hl, ht, ?_, ?_, ?_, ?_, ?_⟩
  · rw [hl]
    exact clampDragLeft_lower w vw s.startLeft (x - s.startX)
  · rw [hl]
    exact clampDragLeft_upper w vw s.startLeft (x - s.startX) hwvw
  · rw [ht]
    exact clampDragTop_lower vh s.startTop (y - s.startY)
  · rw [ht]
    exact clampDragTop_upper vh s.startTop (y - s.startY) hvh
  · rintro rfl
    rw [hl]
    have := clampDragLeft_lower 600 vw s.startLeft (x - s.startX)
    omega

/-- Witness for C8: a drag far to the left of a 600-wide container in a
1000 by 800 viewport. -/
theorem headerDrag_clamps_to_viewport_witness :
    -(600 - 50) ≤ (headerMove [] 1 600 1000 800 (headerDown 500 100 200 200) 10 (-2000) 100).left ∧
    (headerMove [] 1 600 1000 800 (headerDown 500 100 200 200) 10 (-2000) 100).left ≤ 1000 - 50 ∧
    0 ≤ (headerMove [] 1 600 1000 800 (headerDown 500 100 200 200) 10 (-2000) 100).top ∧
    (headerMove [] 1 600 1000 800 (headerDown 500 100 200 200) 10 (-2000) 100).top ≤ 800 - 50 := by
  have h := headerDrag_clamps_to_viewport [] 1 600 1000 800 (headerDown 500 100 200 200)
    10 (-2000) 100 (by decide) (by decide) (by decide)
  exact ⟨h.2.2.1, h.2.2.2.1, h.2.2.2.2.1, h.2.2.2.2.2.1⟩

/-! ## Error handling: unknown ids -/

/-- Claim C7: every operation invoked with an unknown window id or an
unknown container id leaves the entity state untouched and returns an
empty/falsy result (`getWindow` yields `none`); in the embedding all
operations are total functions, so none of them can throw. -/
theorem unknown_ids_are_noops (s : MgrState) (wid tid : WId) (cid : CId)
    (ttl : String) (bf : Bool)
    (hw : lookupW s wid = none) (hc : lookupC s cid = none) :
    closeWindow s wid = s ∧
    focusWindow s wid = s ∧
    restoreWindow s wid = s ∧
    updateWindowTitle s wid ttl = s ∧
    getWindow s wid = none ∧
    popOutWindow s wid = s ∧
    (∀ c, moveWindowToContainer s wid c = s) ∧
    reorderTabDrop s wid tid bf = s ∧
    reorderTabDrop s tid wid bf = s ∧
    minimizeContainer s cid = s ∧
    restoreContainer s cid = s ∧
    (∀ x, mergeContainers s cid x = s) ∧
    (∀ x, mergeContainers s x cid = s) ∧
    (∀ w, moveWindowToContainer s w cid = s) := by
  refine ⟨?_, ?_, ?_, ?_, ?_, ?_, ?_, ?_, ?_, ?_, ?_, ?_, ?_, ?_⟩
  · simp [closeWindow, hw]
  · simp [focusWindow, hw]
  · simp [restoreWindow, hw]
  · simp [updateWindowTitle, hw]
  · simp [getWindow, hw]
  · simp [popOutWindow, hw]
  · intro c
    simp [moveWindowToContainer, hw]
  · by_cases hdt : wid = tid
    · simp [reorderTabDrop, hdt]
    · simp [reorderTabDrop, hdt, hw]
  · by_cases hdt : tid = wid
    · simp [reorderTabDrop, hdt]
    · simp only [reorderTabDrop, if_neg hdt, hw]
      rcases lookupW s tid with _ | w <;> rfl
  · simp [minimizeContainer, hc]
  · simp [restoreContainer, hc]
  · intro x
    by_cases hx : cid = x
    · simp [mergeContainers, hx]
    · simp [mergeContainers, hx, hc]
  · intro x
    by_cases hx : x = cid
    · simp [mergeContainers, hx]
    · simp only [mergeContainers, if_neg hx, hc]
      rcases lookupC s x with _ | c <;> rfl
  · intro w
    rcases hlw : lookupW s w with _ | wd
    · simp [moveWindowToContainer, hlw]
    · rcases hcid : wd.containerId with _ | scid
      · simp [moveWindowToContainer, hlw, hcid]
      · rcases hsc : lookupC s scid with _ | c
        · simp [moveWindowToContainer, hlw, hcid, hsc]
        · simp [moveWindowToContainer, hlw, hcid, hsc, hc]

/-- Witness for C7 on a concrete populated state and absent ids. -/
theorem unknown_ids_are_noops_witness :
    closeWindow (createWindow (initState 1000 800) "w1" "t1" "c1") "nope" =
        createWindow (initState 1000 800) "w1" "t1" "c1" ∧
    getWindow (createWindow (initState 1000 800) "w1" "t1" "c1") "nope" = none ∧
    minimizeContainer (createWindow (initState 1000 800) "w1" "t1" "c1") 7 =
        createWindow (initState 1000 800) "w1" "t1" "c1" := by
  have h := unknown_ids_are_noops (createWindow (initState 1000 800) "w1" "t1" "c1")
    "nope" "w1" 7 "t" true (by decide) (by decide)
  exact ⟨h.1, h.2.2.2.2.1, h.2.2.2.2.2.2.2.2.2.1⟩

/-! ## Dwell-gated merge (header drag) -/

/-- Run a sequence of timed pointer-move events through `headerMove`. -/
def runMoves (rects : List (CId × ContainerData)) (selfId : CId) (w vw vh : Int)
    (s : HeaderDrag) : List (Int × Int × Int) → HeaderDrag
  | [] => s
  | (t, x, y) :: rest => runMoves rects selfId w vw vh (headerMove rects selfId w vw vh s t x y) rest

/-- Mid-hover state with the dwell timer still pending for candidate `c`
and deadline `D`. -/
def HoldPending (D : Int) (c : CId) (s : HeaderDrag) : Prop :=
  s.isDragging = true ∧ s.hasMoved = true ∧ s.target = some c ∧
    s.timerDeadline = some D ∧ s.mergeEnabled = false

/-- Mid-hover state for candidate `c`: either the dwell timer is still
pending with deadline `D`, or it has fired and merge is enabled. -/
def HoldInv (D : Int) (c : CId) (s : HeaderDrag) : Prop :=
  s.isDragging = true ∧ s.hasMoved = true ∧ s.target = some c ∧
    ((s.timerDeadline = some D ∧ s.mergeEnabled = false) ∨
      (s.timerDeadline = none ∧ s.mergeEnabled = true))

theorem headerMove_enter (rects : List (CId × ContainerData)) (selfId : CId) (w vw vh : Int)
    (s : HeaderDrag) (t x y : Int) (c : CId)
    (hd : s.isDragging = true) (hm : s.hasMoved = true)
    (hf : findTarget rects selfId x y = some c) (hne : s.target ≠ some c) :
    HoldPending (t + 300) c (headerMove rects selfId w vw vh s t x y) := by
  unfold headerMove fireTimer HoldPending
  rcases htd : s.timerDeadline with _ | d <;>
    simp only [hd, Bool.true_eq_false, if_false, hm, Bool.true_or, if_true] <;>
    split_ifs <;> simp_all

theorem headerMove_pending (rects : List (CId × ContainerData)) (selfId : CId) (w vw vh : Int)
    (s : HeaderDrag) (t x y : Int) (D : Int) (c : CId)
    (h : HoldPending D c s) (hf : findTarget rects selfId x y = some c) (ht : t < D) :
    HoldPending D c (headerMove rects selfId w vw vh s t x y) := by
  obtain ⟨hd, hm, htg, htd, hme⟩ := h
  unfold headerMove fireTimer HoldPending
  simp only [hd, Bool.true_eq_false, if_false, hm, Bool.true_or, if_true, htd, htg, hf]
  have : ¬ D ≤ t := by omega
  simp [this, hf, htg, hm, hd, hme, htd]

theorem headerMove_hold (rects : List (CId × ContainerData)) (selfId : CId) (w vw vh : Int)
    (s : HeaderDrag) (t x y : Int) (D : Int) (c : CId)
    (h : HoldInv D c s) (hf : findTarget rects selfId x y = some c) :
    HoldInv D c (headerMove rects selfId w vw vh s t x y) := by
  obtain ⟨hd, hm, htg, hrest⟩ := h
  unfold headerMove fireTimer HoldInv
  rcases hrest with ⟨htd, hme⟩ | ⟨htd, hme⟩ <;>
    simp only [hd, Bool.true_eq_false, if_false, hm, Bool.true_or, if_true, htd, htg, hf] <;>
    split_ifs <;> simp_all

theorem runMoves_pending (rects : List (CId × ContainerData)) (selfId : CId) (w vw vh : Int)
    (s : HeaderDrag) (moves : List (Int × Int × Int)) (D : Int) (c : CId)
    (h : HoldPending D c s)
    (hmoves : ∀ mv ∈ moves, findTarget rects selfId mv.2.1 mv.2.2 = some c ∧ mv.1 < D) :
    HoldPending D c (runMoves rects selfId w vw vh s moves) := by
  induction moves generalizing s with
  | nil => exact h
  | cons mv rest ih =>
      obtain ⟨t, x, y⟩ := mv
      have hmv := hmoves (t, x, y) (List.mem_cons_self _ _)
      exact ih _ (headerMove_pending rects selfId w vw vh s t x y D c h hmv.1 hmv.2)
        fun m hm => hmoves m (List.mem_cons_of_mem _ hm)

theorem runMoves_hold (rects : List (CId × ContainerData)) (selfId : CId) (w vw vh : Int)
    (s : HeaderDrag) (moves : List (Int × Int × Int)) (D : Int) (c : CId)
    (h : HoldInv D c s)
    (hmoves : ∀ mv ∈ moves, findTarget rects selfId mv.2.1 mv.2.2 = some c) :
    HoldInv D c (runMoves rects selfId w vw vh s moves) := by
  induction moves generalizing s with
  | nil => exact h
  | cons mv rest ih =>
      obtain ⟨t, x, y⟩ := mv
      exact ih _ (headerMove_hold rects selfId w vw vh s t x y D c h
          (hmoves (t, x, y) (List.mem_cons_self _ _)))
        fun m hm => hmoves m (List.mem_cons_of_mem _ hm)

theorem headerUp_pending (s : HeaderDrag) (t D : Int) (c : CId)
    (h : HoldPending D c s) (ht : t < D) :
    (headerUp s t).2 = ReleaseAction.snapBack := by
  obtain ⟨hd, hm, htg, htd, hme⟩ := h
  unfold headerUp fireTimer
  have : ¬ D ≤ t := by omega
  simp [hd, htd, this, htg, hme]

theorem headerUp_fired (s : HeaderDrag) (t D : Int) (c : CId)
    (h : HoldInv D c s) (ht : D ≤ t) :
    (headerUp s t).2 = ReleaseAction.merge c := by
  obtain ⟨hd, hm, htg, hrest⟩ := h
  unfold headerUp fireTimer
  rcases hrest with ⟨htd, hme⟩ | ⟨htd, hme⟩ <;> simp [hd, htd, ht, htg, hm, hme]

theorem headerMove_leave (rects : List (CId × ContainerData)) (selfId : CId) (w vw vh : Int)
    (s : HeaderDrag) (t x y : Int)
    (hd : s.isDragging = true) (hm : s.hasMoved = true) (htg : s.target ≠ none)
    (hf : findTarget rects selfId x y = none) :
    (headerMove rects selfId w vw vh s t x y).target = none ∧
    (headerMove rects selfId w vw vh s t x y).timerDeadline = none ∧
    (headerMove rects selfId w vw vh s t x y).mergeEnabled = false := by
  unfold headerMove fireTimer
  rcases htd : s.timerDeadline with _ | d <;>
    simp only [hd, Bool.true_eq_false, if_false, hm, Bool.true_or, if_true, hf] <;>
    split_ifs <;> simp_all

/-- Claim C3: during a header drag, once the pointer enters candidate
container `c` at time `te` (starting the 300ms dwell timer) and stays
over `c` through every subsequent move, releasing before `te + 300`
does not merge — the dragged container is constrained back into the
viewport — while releasing at or after `te + 300` merges the dragged
container into `c` via `mergeContainers`; and any move that leaves the
candidate cancels the pending timer, the candidate and the merge
eligibility. -/
theorem dwell_gated_merge (m : MgrState) (rects : List (CId × ContainerData))
    (selfId : CId) (w vw vh : Int) (c : CId) (s0 : HeaderDrag)
    (te ex ey : Int) (moves : List (Int × Int × Int)) (tup : Int)
    (hd : s0.isDragging = true) (hm : s0.hasMoved = true) (hne : s0.target ≠ some c)
    (hentry : findTarget rects selfId ex ey = some c)
    (hmoves : ∀ mv ∈ moves, findTarget rects selfId mv.2.1 mv.2.2 = some c)
    (hbound : ∀ mv ∈ moves, mv.1 ≤ tup) :
    ((headerMove rects selfId w vw vh s0 te ex ey).target = some c ∧
      (headerMove rects selfId w vw vh s0 te ex ey).timerDeadline = some (te + 300) ∧
      (headerMove rects selfId w vw vh s0 te ex ey).mergeEnabled = false) ∧
    (tup < te + 300 →
      (headerUp (runMoves rects selfId w vw vh
          (headerMove rects selfId w vw vh s0 te ex ey) moves) tup).2
          = ReleaseAction.snapBack ∧
      headerRelease m selfId (runMoves rects selfId w vw vh
          (headerMove rects selfId w vw vh s0 te ex ey) moves) tup
          = constrainContainer m selfId) ∧
    (te + 300 ≤ tup →
      (headerUp (runMoves rects selfId w vw vh
          (headerMove rects selfId w vw vh s0 te ex ey) moves) tup).2
          = ReleaseAction.merge c ∧
      headerRelease m selfId (runMoves rects selfId w vw vh
          (headerMove rects selfId w vw vh s0 te ex ey) moves) tup
          = mergeContainers m selfId c) ∧
    (∀ t x y, findTarget rects selfId x y = none →
      (headerMove rects selfId w vw vh (runMoves rects selfId w vw vh
          (headerMove rects selfId w vw vh s0 te ex ey) moves) t x y).target = none ∧
      (headerMove rects selfId w vw vh (runMoves rects selfId w vw vh
          (headerMove rects selfId w vw vh s0 te ex ey) moves) t x y).timerDeadline = none ∧
      (headerMove rects selfId w vw vh (runMoves rects selfId w vw vh
          (headerMove rects selfId w vw vh s0 te ex ey) moves) t x y).mergeEnabled = false) := by
  have henter := headerMove_enter rects selfId w vw vh s0 te ex ey c hd hm hentry hne
  obtain ⟨h1, h2, h3, h4, h5⟩ := henter
  refine ⟨⟨h3, h4, h5⟩, ?_, ?_, ?_⟩
  · intro hlt
    have hpend := runMoves_pending rects selfId w vw vh _ moves (te + 300) c
      ⟨h1, h2, h3, h4, h5⟩
      (fun mv hmv => ⟨hmoves mv hmv, lt_of_le_of_lt (hbound mv hmv) hlt⟩)
    have hup := headerUp_pending _ tup (te + 300) c hpend hlt
    refine ⟨hup, ?_⟩
    unfold headerRelease
    rw [hup]
  · intro hge
    have hhold := runMoves_hold rects selfId w vw vh _ moves (te + 300) c
      ⟨h1, h2, h3, Or.inl ⟨h4, h5⟩⟩ hmoves
    have hup := headerUp_fired _ tup (te + 300) c hhold hge
    refine ⟨hup, ?_⟩
    unfold headerRelease
    rw [hup]
  · intro t x y hf
    have hhold := runMoves_hold rects selfId w vw vh _ moves (te + 300) c
      ⟨h1, h2, h3, Or.inl ⟨h4, h5⟩⟩ hmoves
    obtain ⟨hd', hm', htg', _⟩ := hhold
    exact headerMove_leave rects selfId w vw vh _ t x y hd' hm'
      (by rw [htg']; exact Option.some_ne_none c) hf

/-- Concrete merge candidate for the dwell witness. -/
def witnessTargetC : ContainerData :=
  { tabs := ["x"], activeWindowId := some "x", isMinimized := false, visible := true,
    left := 0, top := 0, width := 600, height := 400, zIndex := 10000 }

/-- Concrete in-progress header drag for the dwell witness. -/
def witnessDrag : HeaderDrag := { headerDown 5 5 100 100 with hasMoved := true }

/-- Witness for C3: entering the candidate at time 0, releasing at 100
snaps back, releasing at 400 merges. -/
theorem dwell_gated_merge_witness :
    (headerUp (runMoves [(2, witnessTargetC)] 1 600 1000 800
        (headerMove [(2, witnessTargetC)] 1 600 1000 800 witnessDrag 0 10 10) []) 100).2
      = ReleaseAction.snapBack ∧
    (headerUp (runMoves [(2, witnessTargetC)] 1 600 1000 800
        (headerMove [(2, witnessTargetC)] 1 600 1000 800 witnessDrag 0 10 10) []) 400).2
      = ReleaseAction.merge 2 := by
  have h1 := dwell_gated_merge (initState 1000 800) [(2, witnessTargetC)] 1 600 1000 800 2
    witnessDrag 0 10 10 [] 100 (by decide) (by decide) (by decide) (by decide)
    (by simp) (by simp)
  have h2 := dwell_gated_merge (initState 1000 800) [(2, witnessTargetC)] 1 600 1000 800 2
    witnessDrag 0 10 10 [] 400 (by decide) (by decide) (by decide) (by decide)
    (by simp) (by simp)
  exact ⟨(h1.2.1 (by decide)).1, (h2.2.2.1 (by decide)).1⟩

/-! ## Lookup characterizations for the manager primitives -/

section AListMore

variable {α : Type} {β : Type} [DecidableEq α]

theorem alookup_cons_general (p : α × β) (l : List (α × β)) (k : α) :
    alookup (p :: l) k = if p.1 = k then some p.2 else alookup l k := rfl

theorem alookup_map_keyfst (l : List (α × β)) (f : α × β → α × β)
    (hf : ∀ p, (f p).1 = p.1) (k : α) :
    alookup (l.map f) k = (alookup l k).map fun v => (f (k, v)).2 := by
  induction l with
  | nil => simp
  | cons p rest ih =>
      obtain ⟨a, b⟩ := p
      rw [List.map_cons, alookup_cons_general, hf]
      by_cases hak : a = k
      · subst hak
        simp
      · simp [hak, ih]

theorem map_keyfst_keys (l : List (α × β)) (f : α × β → α × β)
    (hf : ∀ p, (f p).1 = p.1) :
    (l.map f).map Prod.fst = l.map Prod.fst := by
  induction l with
  | nil => rfl
  | cons p rest ih => simp [hf, ih]

theorem alookup_append_some {l₁ : List (α × β)} {k : α} {v : β} (l₂ : List (α × β))
    (h : alookup l₁ k = some v) : alookup (l₁ ++ l₂) k = some v := by
  induction l₁ with
  | nil => simp at h
  | cons p rest ih =>
      obtain ⟨a, b⟩ := p
      by_cases hak : a = k
      · subst hak
        rw [alookup_cons, if_pos rfl] at h
        simp [h]
      · rw [alookup_cons, if_neg hak] at h
        simp [hak, ih h]

theorem alookup_append_none {l₁ : List (α × β)} {k : α} (l₂ : List (α × β))
    (h : alookup l₁ k = none) : alookup (l₁ ++ l₂) k = alookup l₂ k := by
  induction l₁ with
  | nil => simp
  | cons p rest ih =>
      obtain ⟨a, b⟩ := p
      by_cases hak : a = k
      · subst hak
        simp at h
      · rw [alookup_cons, if_neg hak] at h
        simp [hak, ih h]

end AListMore

theorem foldl_max_le_start (l : List (CId × ContainerData)) (z : Int) :
    z ≤ l.foldl (fun m p => max m p.2.zIndex) z := by
  induction l generalizing z with
  | nil => simp
  | cons p rest ih => exact le_trans (le_max_left _ _) (ih (max z p.2.zIndex))

theorem foldl_max_mem_le (l : List (CId × ContainerData)) (z : Int) (q : CId × ContainerData)
    (h : q ∈ l) : q.2.zIndex ≤ l.foldl (fun m p => max m p.2.zIndex) z := by
  induction l generalizing z with
  | nil => simp at h
  | cons p rest ih =>
      rcases List.mem_cons.mp h with rfl | h'
      · exact le_trans (le_max_right _ _) (foldl_max_le_start rest _)
      · exact ih _ h'

@[simp] theorem lookupC_modifyW (s : MgrState) (wid : WId) (f : WindowData → WindowData)
    (cid : CId) : lookupC (modifyW s wid f) cid = lookupC s cid := rfl

@[simp] theorem lookupW_modifyC (s : MgrState) (cid : CId) (f : ContainerData → ContainerData)
    (wid : WId) : lookupW (modifyC s cid f) wid = lookupW s wid := rfl

theorem lookupW_modifyW (s : MgrState) (wid : WId) (f : WindowData → WindowData) (wid' : WId) :
    lookupW (modifyW s wid f) wid' =
      if wid' = wid then (lookupW s wid').map f else lookupW s wid' :=
  alookup_amodify s.windows wid f wid'

theorem lookupC_modifyC (s : MgrState) (cid : CId) (f : ContainerData → ContainerData)
    (cid' : CId) :
    lookupC (modifyC s cid f) cid' =
      if cid' = cid then (lookupC s cid').map f else lookupC s cid' :=
  alookup_amodify s.containers cid f cid'

@[simp] theorem modifyW_containers (s : MgrState) (wid : WId) (f : WindowData → WindowData) :
    (modifyW s wid f).containers = s.containers := rfl

@[simp] theorem lookupW_eraseTab (s : MgrState) (wid : WId) (wid' : WId) :
    lookupW (eraseTabEverywhere s wid) wid' = lookupW s wid' := rfl

theorem lookupC_eraseTab (s : MgrState) (wid : WId) (cid : CId) :
    lookupC (eraseTabEverywhere s wid) cid =
      (lookupC s cid).map fun c => { c with tabs := c.tabs.erase wid } :=
  alookup_map_keyfst s.containers
    (fun p => (p.1, { p.2 with tabs := p.2.tabs.erase wid })) (fun p => rfl) cid

@[simp] theorem eraseTab_windows (s : MgrState) (wid : WId) :
    (eraseTabEverywhere s wid).windows = s.windows := rfl

@[simp] theorem eraseTab_counter (s : MgrState) (wid : WId) :
    (eraseTabEverywhere s wid).containerIdCounter = s.containerIdCounter := rfl

@[simp] theorem modifyC_windows (s : MgrState) (cid : CId) (f : ContainerData → ContainerData) :
    (modifyC s cid f).windows = s.windows := rfl

@[simp] theorem modifyC_counter (s : MgrState) (cid : CId) (f : ContainerData → ContainerData) :
    (modifyC s cid f).containerIdCounter = s.containerIdCounter := rfl

@[simp] theorem modifyW_counter (s : MgrState) (wid : WId) (f : WindowData → WindowData) :
    (modifyW s wid f).containerIdCounter = s.containerIdCounter := rfl

theorem eraseTab_keys (s : MgrState) (wid : WId) :
    (eraseTabEverywhere s wid).containers.map Prod.fst = s.containers.map Prod.fst :=
  map_keyfst_keys s.containers _ fun p => rfl

theorem modifyC_keys (s : MgrState) (cid : CId) (f : ContainerData → ContainerData) :
    (modifyC s cid f).containers.map Prod.fst = s.containers.map Prod.fst :=
  amodify_keys s.containers cid f

/-! ## Shape-preserving steps

Many source operations (focus, z-order raise, minimize/restore flags,
visibility refresh, geometry constraint) never touch the tab orders or
the window-to-container assignment.  `SameShape` captures that, and
well-formedness transports across it. -/

def SameShape (s s' : MgrState) : Prop :=
  s'.containerIdCounter = s.containerIdCounter ∧
  s'.windows.map Prod.fst = s.windows.map Prod.fst ∧
  s'.containers.map Prod.fst = s.containers.map Prod.fst ∧
  (∀ wid, (lookupW s' wid).map WindowData.containerId
      = (lookupW s wid).map WindowData.containerId) ∧
  (∀ cid, (lookupC s' cid).map ContainerData.tabs
      = (lookupC s cid).map ContainerData.tabs)

theorem sameShape_refl (s : MgrState) : SameShape s s :=
  ⟨rfl, rfl, rfl, fun _ => rfl, fun _ => rfl⟩

theorem sameShape_trans {s s' s'' : MgrState}
    (h1 : SameShape s s') (h2 : SameShape s' s'') : SameShape s s'' :=
  ⟨h2.1.trans h1.1, h2.2.1.trans h1.2.1, h2.2.2.1.trans h1.2.2.1,
    fun wid => (h2.2.2.2.1 wid).trans (h1.2.2.2.1 wid),
    fun cid => (h2.2.2.2.2 cid).trans (h1.2.2.2.2 cid)⟩

theorem WF0_of_sameShape {s s' : MgrState} (h : SameShape s s') (hwf : WF0 s) : WF0 s' := by
  obtain ⟨hcnt, hwk, hck, hwid, hcid⟩ := h
  obtain ⟨hWnod, hCnod, hCont, hHomed⟩ := hwf
  refine ⟨by rw [hwk]; exact hWnod, by rw [hck]; exact hCnod, ?_, ?_⟩
  · intro p hp
    have hlook' : lookupC s' p.1 = some p.2 :=
      alookup_eq_some_of_mem (by rw [hck]; exact hCnod) hp
    have htabs := hcid p.1
    rw [hlook'] at htabs
    rcases hc : lookupC s p.1 with _ | c
    · rw [hc] at htabs
      simp at htabs
    · rw [hc] at htabs
      simp only [Option.map_some', Option.some.injEq] at htabs
      have hcmem : (p.1, c) ∈ s.containers := mem_of_alookup_eq_some hc
      obtain ⟨hnodt, hle, hres⟩ := hCont _ hcmem
      refine ⟨by rw [htabs]; exact hnodt, by rw [hcnt]; exact hle, ?_⟩
      intro wid hwtab
      rw [hwid wid]
      exact hres wid (by rw [← htabs]; exact hwtab)
  · intro q hq
    have hlook' : lookupW s' q.1 = some q.2 :=
      alookup_eq_some_of_mem (by rw [hwk]; exact hWnod) hq
    have hcq := hwid q.1
    rw [hlook'] at hcq
    rcases hw : lookupW s q.1 with _ | w
    · rw [hw] at hcq
      simp at hcq
    · rw [hw] at hcq
      simp only [Option.map_some', Option.some.injEq] at hcq
      have hwmem : (q.1, w) ∈ s.windows := mem_of_alookup_eq_some hw
      obtain ⟨cid, c, hwc, hc, hmem⟩ := homedB_iff.mp (hHomed _ hwmem)
      have htabs := hcid cid
      rw [hc] at htabs
      rcases hc' : lookupC s' cid with _ | c'
      · rw [hc'] at htabs
        simp at htabs
      · rw [hc'] at htabs
        simp only [Option.map_some', Option.some.injEq] at htabs
        exact homedB_iff.mpr ⟨cid, c', by rw [hcq, hwc], hc', by rw [htabs]; exact hmem⟩

theorem WF_of_sameShape {s s' : MgrState} (h : SameShape s s') (hwf : WF s) : WF s' := by
  refine ⟨WF0_of_sameShape h hwf.1, ?_⟩
  obtain ⟨hcnt, hwk, hck, hwid, hcid⟩ := h
  intro p hp
  have hlook' : lookupC s' p.1 = some p.2 :=
    alookup_eq_some_of_mem (by rw [hck]; exact hwf.1.2.1) hp
  have htabs := hcid p.1
  rw [hlook'] at htabs
  rcases hc : lookupC s p.1 with _ | c
  · rw [hc] at htabs
    simp at htabs
  · rw [hc] at htabs
    simp only [Option.map_some', Option.some.injEq] at htabs
    have hcmem : (p.1, c) ∈ s.containers := mem_of_alookup_eq_some hc
    rw [htabs]
    exact hwf.2 _ hcmem

theorem sameShape_modifyC (s : MgrState) (cid : CId) (f : ContainerData → ContainerData)
    (hf : ∀ c, (f c).tabs = c.tabs) : SameShape s (modifyC s cid f) := by
  refine ⟨rfl, rfl, modifyC_keys s cid f, fun _ => rfl, ?_⟩
  intro cid'
  rw [lookupC_modifyC]
  by_cases h : cid' = cid
  · rw [if_pos h]
    rcases hc : lookupC s cid' with _ | c
    · rfl
    · simp [hf]
  · rw [if_neg h]

theorem sameShape_modifyW (s : MgrState) (wid : WId) (f : WindowData → WindowData)
    (hf : ∀ w, (f w).containerId = w.containerId) : SameShape s (modifyW s wid f) := by
  refine ⟨rfl, amodify_keys s.windows wid f, rfl, ?_, fun _ => rfl⟩
  intro wid'
  rw [lookupW_modifyW]
  by_cases h : wid' = wid
  · rw [if_pos h]
    rcases hw : lookupW s wid' with _ | w
    · rfl
    · simp [hf]
  · rw [if_neg h]

theorem sameShape_mapWindows (s : MgrState) (g : WId × WindowData → WId × WindowData)
    (hk : ∀ q, (g q).1 = q.1) (hc : ∀ q, ((g q).2).containerId = q.2.containerId) :
    SameShape s { s with windows := s.windows.map g } := by
  refine ⟨rfl, map_keyfst_keys s.windows g hk, rfl, ?_, fun _ => rfl⟩
  intro wid
  show (alookup (s.windows.map g) wid).map _ = _
  rw [alookup_map_keyfst s.windows g hk]
  rcases hw : lookupW s wid with _ | w
  · rw [show alookup s.windows wid = none from hw]
    rfl
  · rw [show alookup s.windows wid = some w from hw]
    simp only [Option.map_some', Option.some.injEq]
    exact hc (wid, w)

theorem sameShape_bringToFront (s : MgrState) (cid : CId) :
    SameShape s (bringContainerToFront s cid) :=
  sameShape_modifyC s cid _ fun _ => rfl

theorem sameShape_focus (s : MgrState) (wid : WId) (cid : CId) :
    SameShape s (focusWindowInContainer s wid cid) := by
  unfold focusWindowInContainer
  rcases lookupC s cid with _ | c
  · exact sameShape_refl s
  · exact sameShape_trans
      (sameShape_modifyC s cid (fun c => { c with activeWindowId := some wid }) fun _ => rfl)
      (sameShape_bringToFront _ cid)

theorem sameShape_updateVis (s : MgrState) (cid : CId) :
    SameShape s (updateContainerVisibility s cid) := by
  unfold updateContainerVisibility
  rcases lookupC s cid with _ | c
  · exact sameShape_refl s
  · exact sameShape_modifyC s cid
      (fun c => { c with visible := !(visibleWindowsOf s cid).isEmpty }) fun _ => rfl

theorem sameShape_constrain (s : MgrState) (cid : CId) :
    SameShape s (constrainContainer s cid) :=
  sameShape_modifyC s cid _ fun _ => rfl

theorem sameShape_minimize (s : MgrState) (cid : CId) :
    SameShape s (minimizeContainer s cid) := by
  unfold minimizeContainer
  rcases lookupC s cid with _ | c
  · exact sameShape_refl s
  · exact sameShape_trans
      (sameShape_modifyC s cid (fun c => { c with visible := false, isMinimized := true })
        fun _ => rfl)
      (sameShape_mapWindows _
        (fun q => if q.2.containerId = some cid then (q.1, { q.2 with isMinimized := true }) else q)
        (fun q => by dsimp only; split <;> rfl)
        (fun q => by dsimp only; split <;> rfl))

theorem sameShape_restore (s : MgrState) (cid : CId) :
    SameShape s (restoreContainer s cid) := by
  unfold restoreContainer
  rcases lookupC s cid with _ | c
  · exact sameShape_refl s
  · exact sameShape_trans
      (sameShape_trans
        (sameShape_modifyC s cid (fun c => { c with visible := true, isMinimized := false })
          fun _ => rfl)
        (sameShape_mapWindows _
          (fun q => if q.2.containerId = some cid then (q.1, { q.2 with isMinimized := false }) else q)
          (fun q => by dsimp only; split <;> rfl)
          (fun q => by dsimp only; split <;> rfl)))
      (sameShape_bringToFront _ cid)

/-! ## Well-formedness helpers -/

theorem homed_of_lookupW {s : MgrState} {wid : WId} {w : WindowData}
    (hwf0 : WF0 s) (hw : lookupW s wid = some w) :
    ∃ cid c, w.containerId = some cid ∧ lookupC s cid = some c ∧ wid ∈ c.tabs :=
  homedB_iff.mp (hwf0.2.2.2 _ (mem_of_alookup_eq_some hw))

theorem resolve_of_mem {s : MgrState} {p : CId × ContainerData} {wid : WId}
    (hwf0 : WF0 s) (hp : p ∈ s.containers) (hw : wid ∈ p.2.tabs) :
    ∃ w, lookupW s wid = some w ∧ w.containerId = some p.1 :=
  resolves_iff.mp ((hwf0.2.2.1 p hp).2.2 wid hw)

theorem tab_unique {s : MgrState} {wid : WId} {w : WindowData} {cid : CId}
    {p : CId × ContainerData} (hwf0 : WF0 s) (hw : lookupW s wid = some w)
    (hcid : w.containerId = some cid) (hp : p ∈ s.containers) (hne : p.1 ≠ cid) :
    wid ∉ p.2.tabs := by
  intro hmem
  obtain ⟨w', hw', hc'⟩ := resolve_of_mem hwf0 hp hmem
  rw [hw] at hw'
  obtain rfl := Option.some.inj hw'
  rw [hcid] at hc'
  exact hne (Option.some.inj hc').symm

theorem tab_dead {s : MgrState} {wid : WId} {p : CId × ContainerData}
    (hwf0 : WF0 s) (hw : lookupW s wid = none) (hp : p ∈ s.containers) :
    wid ∉ p.2.tabs := by
  intro hmem
  obtain ⟨w', hw', _⟩ := resolve_of_mem hwf0 hp hmem
  rw [hw] at hw'
  exact Option.noConfusion hw'

theorem mem_windowsOf_iff {s : MgrState} {cid : CId} {q : WId × WindowData} :
    q ∈ windowsOf s cid ↔ q ∈ s.windows ∧ q.2.containerId = some cid := by
  unfold windowsOf
  rw [List.mem_filter]
  simp

theorem mem_visibleWindowsOf_iff {s : MgrState} {cid : CId} {q : WId × WindowData} :
    q ∈ visibleWindowsOf s cid ↔
      q ∈ s.windows ∧ q.2.containerId = some cid ∧ q.2.isInPopup = false := by
  unfold visibleWindowsOf
  rw [List.mem_filter]
  simp

theorem windowsOf_ne_nil_iff {s : MgrState} {cid : CId} {c : ContainerData}
    (hwf0 : WF0 s) (hc : lookupC s cid = some c) :
    windowsOf s cid ≠ [] ↔ c.tabs ≠ [] := by
  constructor
  · intro hne
    obtain ⟨q, hq⟩ := List.exists_mem_of_ne_nil _ hne
    obtain ⟨hqw, hqc⟩ := mem_windowsOf_iff.mp hq
    obtain ⟨cid', c', hcid', hc', hmem⟩ := homedB_iff.mp (hwf0.2.2.2 _ hqw)
    rw [hqc] at hcid'
    obtain rfl := Option.some.inj hcid'
    rw [hc] at hc'
    obtain rfl := Option.some.inj hc'
    exact List.ne_nil_of_mem hmem
  · intro hne
    obtain ⟨wid, hwid⟩ := List.exists_mem_of_ne_nil _ hne
    obtain ⟨w, hw, hwc⟩ := resolve_of_mem hwf0 (mem_of_alookup_eq_some hc) hwid
    refine List.ne_nil_of_mem (mem_windowsOf_iff.mpr ⟨mem_of_alookup_eq_some hw, hwc⟩)

theorem tabsPred_of_sameShape {s s' : MgrState} (h : SameShape s s')
    (hnod : (s.containers.map Prod.fst).Nodup) (P : CId → List WId → Prop)
    (hp : ∀ p ∈ s.containers, P p.1 p.2.tabs) :
    ∀ p ∈ s'.containers, P p.1 p.2.tabs := by
  obtain ⟨hcnt, hwk, hck, hwid, hcid⟩ := h
  intro p hpmem
  have hlook' : lookupC s' p.1 = some p.2 :=
    alookup_eq_some_of_mem (by rw [hck]; exact hnod) hpmem
  have htabs := hcid p.1
  rw [hlook'] at htabs
  rcases hc : lookupC s p.1 with _ | c
  · rw [hc] at htabs
    simp at htabs
  · rw [hc] at htabs
    simp only [Option.map_some', Option.some.injEq] at htabs
    rw [htabs]
    exact hp _ (mem_of_alookup_eq_some hc)

/-! ## Well-formedness preservation -/

theorem WF_minimizeContainer (s : MgrState) (cid : CId) (hwf : WF s) :
    WF (minimizeContainer s cid) :=
  WF_of_sameShape (sameShape_minimize s cid) hwf

theorem WF_restoreContainer (s : MgrState) (cid : CId) (hwf : WF s) :
    WF (restoreContainer s cid) :=
  WF_of_sameShape (sameShape_restore s cid) hwf

theorem WF_cleanupContainerIfEmpty (u : MgrState) (cid : CId) (hu : WF0 u)
    (hne : ∀ p ∈ u.containers, p.1 ≠ cid → p.2.tabs ≠ []) :
    WF (cleanupContainerIfEmpty u cid) := by
  rcases hc : lookupC u cid with _ | c
  · have heq : cleanupContainerIfEmpty u cid = u := by
      unfold cleanupContainerIfEmpty
      rw [hc]
    rw [heq]
    refine ⟨hu, ?_⟩
    intro p hp
    refine hne p hp ?_
    intro he
    have : p.1 ∈ u.containers.map Prod.fst := List.mem_map.mpr ⟨p, hp, rfl⟩
    rw [he] at this
    exact (alookup_eq_none_iff.mp hc) this
  · have heq : cleanupContainerIfEmpty u cid =
        if (windowsOf u cid).isEmpty then { u with containers := adelete u.containers cid }
        else updateContainerVisibility u cid := by
      unfold cleanupContainerIfEmpty
      rw [hc]
    rw [heq]
    by_cases hemp : (windowsOf u cid).isEmpty
    · rw [if_pos hemp]
      obtain ⟨hWnod, hCnod, hCont, hHomed⟩ := hu
      have hwempty : windowsOf u cid = [] := by
        rwa [List.isEmpty_iff] at hemp
      refine ⟨⟨hWnod, hCnod.sublist (adelete_keys_sublist u.containers cid), ?_, ?_⟩, ?_⟩
      · intro p hp
        obtain ⟨hpmem, hpne⟩ := mem_adelete_iff.mp hp
        exact hCont p hpmem
      · intro q hq
        obtain ⟨cid2, c2, hqc, hc2, hmem⟩ := homedB_iff.mp (hHomed q hq)
        have hcid2 : cid2 ≠ cid := by
          rintro rfl
          exact (List.ne_nil_of_mem (mem_windowsOf_iff.mpr ⟨hq, hqc⟩)) hwempty
        refine homedB_iff.mpr ⟨cid2, c2, hqc, ?_, hmem⟩
        show alookup (adelete u.containers cid) cid2 = some c2
        rw [alookup_adelete, if_neg hcid2]
        exact hc2
      · intro p hp
        obtain ⟨hpmem, hpne⟩ := mem_adelete_iff.mp hp
        exact hne p hpmem hpne
    · rw [if_neg hemp]
      have hwne : windowsOf u cid ≠ [] := by
        intro he
        rw [he] at hemp
        exact hemp rfl
      have hwfu : WF u := by
        refine ⟨hu, ?_⟩
        intro p hp
        by_cases hpc : p.1 = cid
        · have : lookupC u p.1 = some p.2 := alookup_eq_some_of_mem hu.2.1 hp
          rw [hpc, hc] at this
          obtain rfl := Option.some.inj this
          exact (windowsOf_ne_nil_iff hu (hpc ▸ hc)).mp hwne
        · exact hne p hp hpc
      exact WF_of_sameShape (sameShape_updateVis u cid) hwfu

/-- The state of `closeWindow` after the tab element and the window
record have been removed, before the active-window repair and cleanup. -/
def stripWindow (s : MgrState) (wid : WId) : MgrState :=
  let s1 := eraseTabEverywhere s wid
  { s1 with windows := adelete s1.windows wid }

theorem lookupW_stripWindow (s : MgrState) (wid wid' : WId) :
    lookupW (stripWindow s wid) wid' = if wid' = wid then none else lookupW s wid' :=
  alookup_adelete _ wid wid'

theorem lookupC_stripWindow (s : MgrState) (wid : WId) (cid : CId) :
    lookupC (stripWindow s wid) cid =
      (lookupC s cid).map fun c => { c with tabs := c.tabs.erase wid } :=
  lookupC_eraseTab s wid cid

theorem WF0_stripWindow (s : MgrState) (wid : WId) (hwf : WF s) :
    WF0 (stripWindow s wid) := by
  obtain ⟨⟨hWnod, hCnod, hCont, hHomed⟩, hNonempty⟩ := hwf
  refine ⟨hWnod.sublist (adelete_keys_sublist s.windows wid), ?_, ?_, ?_⟩
  · show ((eraseTabEverywhere s wid).containers.map Prod.fst).Nodup
    rw [eraseTab_keys]
    exact hCnod
  · intro p hp
    obtain ⟨q, hq, hfq⟩ := List.mem_map.mp hp
    obtain ⟨hqnod, hqle, hqres⟩ := hCont q hq
    refine ⟨?_, ?_, ?_⟩
    · rw [← hfq]
      exact hqnod.erase wid
    · rw [← hfq]
      exact hqle
    · intro wid' hwid'
      rw [← hfq] at hwid'
      have hne : wid' ≠ wid := ((List.Nodup.mem_erase_iff hqnod).mp hwid').1
      have hmem : wid' ∈ q.2.tabs := ((List.Nodup.mem_erase_iff hqnod).mp hwid').2
      have := hqres wid' hmem
      rw [show lookupW (stripWindow s wid) wid' = lookupW s wid' by
        rw [lookupW_stripWindow, if_neg hne]]
      rw [← hfq]
      exact this
  · intro q' hq'
    obtain ⟨hqmem, hqne⟩ := mem_adelete_iff.mp hq'
    obtain ⟨cid2, c2, hqc, hc2, hmem⟩ := homedB_iff.mp (hHomed q' hqmem)
    refine homedB_iff.mpr ⟨cid2, { c2 with tabs := c2.tabs.erase wid }, hqc, ?_, ?_⟩
    · rw [lookupC_stripWindow, hc2]
      rfl
    · exact (List.mem_erase_of_ne hqne).mpr hmem

theorem WF_closeWindow (s : MgrState) (wid : WId) (hwf : WF s) :
    WF (closeWindow s wid) := by
  rcases hw : lookupW s wid with _ | w
  · have heq : closeWindow s wid = s := by
      unfold closeWindow
      rw [hw]
    rw [heq]
    exact hwf
  · obtain ⟨cid, c, hcid, hc, hmem⟩ := homed_of_lookupW hwf.1 hw
    have hWF0s2 : WF0 (stripWindow s wid) := WF0_stripWindow s wid hwf
    have hne2 : ∀ p ∈ (stripWindow s wid).containers, p.1 ≠ cid → p.2.tabs ≠ [] := by
      intro p hp hpne
      obtain ⟨q, hq, hfq⟩ := List.mem_map.mp hp
      have hqne : q.1 ≠ cid := by
        rw [← hfq] at hpne
        exact hpne
      have hnot : wid ∉ q.2.tabs := tab_unique hwf.1 hw hcid hq hqne
      rw [← hfq]
      show q.2.tabs.erase wid ≠ []
      rw [List.erase_of_not_mem hnot]
      exact hwf.2 q hq
    have hgen : ∀ u, SameShape (stripWindow s wid) u →
        WF (cleanupContainerIfEmpty u cid) := by
      intro u hu
      refine WF_cleanupContainerIfEmpty u cid (WF0_of_sameShape hu hWF0s2) ?_
      exact tabsPred_of_sameShape hu hWF0s2.2.1 (fun k tabs => k ≠ cid → tabs ≠ []) hne2
    have heq : closeWindow s wid =
        cleanupContainerIfEmpty
          (match lookupC (stripWindow s wid) cid with
           | none => stripWindow s wid
           | some c2 =>
               if c2.activeWindowId = some wid then
                 modifyC (stripWindow s wid) cid fun cc =>
                   { cc with activeWindowId :=
                       ((visibleWindowsOf (stripWindow s wid) cid).head?).map Prod.fst }
               else stripWindow s wid) cid := by
      unfold closeWindow stripWindow
      rw [hw]
      dsimp only
      rw [hcid]
    rw [heq]
    rcases hlc : lookupC (stripWindow s wid) cid with _ | c2
    · exact hgen _ (sameShape_refl _)
    · show WF (cleanupContainerIfEmpty
        (if c2.activeWindowId = some wid then
          modifyC (stripWindow s wid) cid fun cc =>
            { cc with activeWindowId :=
                ((visibleWindowsOf (stripWindow s wid) cid).head?).map Prod.fst }
         else stripWindow s wid) cid)
      by_cases hact : c2.activeWindowId = some wid
      · rw [if_pos hact]
        exact hgen _ (sameShape_modifyC _ cid _ fun _ => rfl)
      · rw [if_neg hact]
        exact hgen _ (sameShape_refl _)

/-! ## Rendering a window into a container -/

theorem lookupW_render (s : MgrState) (wid : WId) (cid : CId) (wid' : WId) :
    lookupW (renderWindowInContainer s wid cid) wid' =
      if wid' = wid then (lookupW s wid').map (fun w => { w with containerId := some cid })
      else lookupW s wid' :=
  lookupW_modifyW s wid (fun w => { w with containerId := some cid }) wid'

theorem lookupC_render (s : MgrState) (wid : WId) (cid : CId) (cid' : CId) :
    lookupC (renderWindowInContainer s wid cid) cid' =
      if cid' = cid then
        (lookupC s cid').map fun c => { c with tabs := c.tabs.erase wid ++ [wid] }
      else (lookupC s cid').map fun c => { c with tabs := c.tabs.erase wid } := by
  unfold renderWindowInContainer createTab
  rw [lookupC_modifyC, lookupC_eraseTab, lookupC_modifyW]
  by_cases h : cid' = cid
  · rw [if_pos h, if_pos h]
    rcases lookupC s cid' with _ | c <;> rfl
  · rw [if_neg h, if_neg h]

theorem render_ckeys (s : MgrState) (wid : WId) (cid : CId) :
    (renderWindowInContainer s wid cid).containers.map Prod.fst = s.containers.map Prod.fst := by
  unfold renderWindowInContainer createTab
  rw [modifyC_keys]
  exact eraseTab_keys _ wid

theorem render_wkeys (s : MgrState) (wid : WId) (cid : CId) :
    (renderWindowInContainer s wid cid).windows.map Prod.fst = s.windows.map Prod.fst :=
  amodify_keys s.windows wid (fun w => { w with containerId := some cid })

theorem render_counter (s : MgrState) (wid : WId) (cid : CId) :
    (renderWindowInContainer s wid cid).containerIdCounter = s.containerIdCounter := rfl

theorem mem_render_containers {s : MgrState} {wid : WId} {cid : CId} {p : CId × ContainerData}
    (hp : p ∈ (renderWindowInContainer s wid cid).containers) :
    ∃ q ∈ s.containers, p.1 = q.1 ∧
      p.2.tabs = (if q.1 = cid then q.2.tabs.erase wid ++ [wid] else q.2.tabs.erase wid) := by
  have hp2 : p ∈ amodify
      ((eraseTabEverywhere (modifyW s wid fun w => { w with containerId := some cid }) wid).containers)
      cid (fun c => { c with tabs := c.tabs ++ [wid] }) := hp
  obtain ⟨q', hq', hfq'⟩ := mem_amodify_iff.mp hp2
  have hq'2 : q' ∈ s.containers.map
      (fun r => (r.1, { r.2 with tabs := r.2.tabs.erase wid })) := hq'
  obtain ⟨q, hq, hfq⟩ := List.mem_map.mp hq'2
  refine ⟨q, hq, ?_, ?_⟩
  · rw [hfq']
    split <;> rw [← hfq]
  · rw [hfq']
    by_cases hqc : q'.1 = cid
    · rw [if_pos hqc]
      have : q.1 = cid := by
        rw [← hfq] at hqc
        exact hqc
      rw [if_pos this]
      show ({ q'.2 with tabs := q'.2.tabs ++ [wid] } : ContainerData).tabs = _
      rw [← hfq]
    · rw [if_neg hqc]
      have : ¬ q.1 = cid := by
        rw [← hfq] at hqc
        exact hqc
      rw [if_neg this, ← hfq]

theorem mem_render_windows {s : MgrState} {wid : WId} {cid : CId} {q' : WId × WindowData}
    (hq' : q' ∈ (renderWindowInContainer s wid cid).windows) :
    ∃ q ∈ s.windows, q' = (if q.1 = wid then (q.1, { q.2 with containerId := some cid }) else q) := by
  have hq2 : q' ∈ amodify s.windows wid (fun w => { w with containerId := some cid }) := hq'
  exact mem_amodify_iff.mp hq2

/-- `WF0` after `renderWindowInContainer`, assuming the core conditions
except possibly those involving the moved window itself: its record must
exist, the resolve condition is only needed for other tabs, and its own
`homedB` is not required (this covers both a freshly registered window
and one being moved between live containers). -/
theorem WF0_render (s : MgrState) (wid : WId) (tcid : CId) (tc : ContainerData)
    (h1 : (s.windows.map Prod.fst).Nodup)
    (h2 : (s.containers.map Prod.fst).Nodup)
    (h3 : ∀ p ∈ s.containers, p.2.tabs.Nodup ∧ p.1 ≤ s.containerIdCounter ∧
        ∀ wid' ∈ p.2.tabs, wid' ≠ wid →
          (lookupW s wid').map WindowData.containerId = some (some p.1))
    (h4 : ∀ q ∈ s.windows, q.1 ≠ wid → homedB s q.1 q.2 = true)
    (h5 : ∃ w, lookupW s wid = some w)
    (h6 : lookupC s tcid = some tc) :
    WF0 (renderWindowInContainer s wid tcid) := by
  obtain ⟨w, hw⟩ := h5
  refine ⟨by rw [render_wkeys]; exact h1, by rw [render_ckeys]; exact h2, ?_, ?_⟩
  · intro p hp
    obtain ⟨q, hq, hpq, hptabs⟩ := mem_render_containers hp
    obtain ⟨hqnod, hqle, hqres⟩ := h3 q hq
    have herasenod : (q.2.tabs.erase wid).Nodup := hqnod.erase wid
    have hwidnotin : wid ∉ q.2.tabs.erase wid := fun hmem =>
      ((List.Nodup.mem_erase_iff hqnod).mp hmem).1 rfl
    refine ⟨?_, ?_, ?_⟩
    · rw [hptabs]
      split
      · rw [← List.concat_eq_append]
        exact herasenod.concat hwidnotin
      · exact herasenod
    · rw [hpq, render_counter]
      exact hqle
    · intro wid' hwid'
      rw [hptabs] at hwid'
      by_cases hww : wid' = wid
      · subst hww
        have hqcid : q.1 = tcid := by
          by_cases hqc : q.1 = tcid
          · exact hqc
          · rw [if_neg hqc] at hwid'
            exact absurd hwid' hwidnotin
        rw [lookupW_render, if_pos rfl, hw, hpq, hqcid]
        rfl
      · have hmem : wid' ∈ q.2.tabs := by
          by_cases hqc : q.1 = tcid
          · rw [if_pos hqc] at hwid'
            rcases List.mem_append.mp hwid' with hmm | hmm
            · exact List.mem_of_mem_erase hmm
            · exact absurd (List.mem_singleton.mp hmm) hww
          · rw [if_neg hqc] at hwid'
            exact List.mem_of_mem_erase hwid'
        rw [lookupW_render, if_neg hww, hpq]
        exact hqres wid' hmem hww
  · intro q' hq'
    obtain ⟨q, hq, hfq⟩ := mem_render_windows hq'
    by_cases hqw : q.1 = wid
    · rw [hfq, if_pos hqw]
      refine homedB_iff.mpr ⟨tcid, { tc with tabs := tc.tabs.erase wid ++ [wid] }, rfl, ?_, ?_⟩
      · rw [lookupC_render, if_pos rfl, h6]
        rfl
      · refine List.mem_append.mpr (Or.inr ?_)
        show q.1 ∈ [wid]
        rw [hqw]
        exact List.mem_cons_self wid []
    · obtain ⟨cid2, c2, hqc, hc2, hmem⟩ := homedB_iff.mp (h4 q hq hqw)
      rw [hfq, if_neg hqw]
      by_cases hc2t : cid2 = tcid
      · subst hc2t
        refine homedB_iff.mpr ⟨cid2, { c2 with tabs := c2.tabs.erase wid ++ [wid] }, hqc, ?_, ?_⟩
        · rw [lookupC_render, if_pos rfl, hc2]
          rfl
        · exact List.mem_append.mpr (Or.inl ((List.mem_erase_of_ne hqw).mpr hmem))
      · refine homedB_iff.mpr ⟨cid2, { c2 with tabs := c2.tabs.erase wid }, hqc, ?_, ?_⟩
        · rw [lookupC_render, if_neg hc2t, hc2]
          rfl
        · exact (List.mem_erase_of_ne hqw).mpr hmem

/-! ## Container allocation -/

theorem counter_fresh {s : MgrState} (hwf0 : WF0 s) :
    s.containerIdCounter + 1 ∉ s.containers.map Prod.fst := by
  intro hmem
  obtain ⟨p, hp, hfst⟩ := List.mem_map.mp hmem
  have hck : p.1 ≤ s.containerIdCounter := (hwf0.2.2.1 p hp).2.1
  rw [hfst] at hck
  exact Nat.not_succ_le_self _ hck

theorem counter_fresh_lookup {s : MgrState} (hwf0 : WF0 s) :
    lookupC s (s.containerIdCounter + 1) = none :=
  alookup_eq_none_iff.mpr (counter_fresh hwf0)

theorem createNew_snd (s : MgrState) (pos : Option (Int × Int)) :
    (createNewContainer s pos).2 = s.containerIdCounter + 1 := rfl

theorem createNew_windows (s : MgrState) (pos : Option (Int × Int)) :
    (createNewContainer s pos).1.windows = s.windows := rfl

theorem createNew_counter (s : MgrState) (pos : Option (Int × Int)) :
    (createNewContainer s pos).1.containerIdCounter = s.containerIdCounter + 1 := rfl

theorem createNew_containers (s : MgrState) (pos : Option (Int × Int)) :
    (createNewContainer s pos).1.containers
        = s.containers ++ [(s.containerIdCounter + 1, newContainerData s pos)] := rfl

theorem newContainerData_tabs (s : MgrState) (pos : Option (Int × Int)) :
    (newContainerData s pos).tabs = [] := rfl

theorem newContainerData_active (s : MgrState) (pos : Option (Int × Int)) :
    (newContainerData s pos).activeWindowId = none := rfl

theorem newContainerData_visible (s : MgrState) (pos : Option (Int × Int)) :
    (newContainerData s pos).visible = true := rfl

theorem newContainerData_width (s : MgrState) (pos : Option (Int × Int)) :
    (newContainerData s pos).width = 600 := rfl

theorem newContainerData_at (s : MgrState) (p : Int × Int) :
    (newContainerData s (some p)).left = p.1 ∧ (newContainerData s (some p)).top = p.2 :=
  ⟨rfl, rfl⟩

theorem createNew_spec (s : MgrState) (pos : Option (Int × Int)) :
    ∃ c0 : ContainerData,
      (createNewContainer s pos).1.containers
          = s.containers ++ [(s.containerIdCounter + 1, c0)] ∧
      c0.tabs = [] ∧ c0.activeWindowId = none ∧ c0.visible = true ∧ c0.width = 600 ∧
      ∀ p : Int × Int, pos = some p → c0.left = p.1 ∧ c0.top = p.2 := by
  refine ⟨newContainerData s pos, rfl, rfl, rfl, rfl, rfl, ?_⟩
  intro p hp
  subst hp
  exact ⟨rfl, rfl⟩

theorem WF0_createNewContainer (s : MgrState) (pos : Option (Int × Int)) (hwf0 : WF0 s) :
    WF0 (createNewContainer s pos).1 := by
  obtain ⟨hWnod, hCnod, hCont, hHomed⟩ := hwf0
  obtain ⟨c0, hcont, hct, hca, hcv, hcw, hcpos⟩ := createNew_spec s pos
  refine ⟨hWnod, ?_, ?_, ?_⟩
  · rw [hcont, List.map_append]
    rw [List.nodup_append]
    refine ⟨hCnod, List.nodup_singleton _, ?_⟩
    intro a ha hb
    simp only [List.map_cons, List.map_nil, List.mem_cons, List.not_mem_nil, or_false] at hb
    rw [hb] at ha
    exact counter_fresh ⟨hWnod, hCnod, hCont, hHomed⟩ ha
  · intro p hp
    rw [hcont] at hp
    rcases List.mem_append.mp hp with hp | hp
    · obtain ⟨hnod, hle, hres⟩ := hCont p hp
      refine ⟨hnod, ?_, ?_⟩
      · rw [createNew_counter]
        exact Nat.le_succ_of_le hle
      · intro wid hwid
        show (lookupW s wid).map WindowData.containerId = some (some p.1)
        exact hres wid hwid
    · simp only [List.mem_cons, List.not_mem_nil, or_false] at hp
      rw [hp]
      refine ⟨by rw [hct]; exact List.nodup_nil, by rw [createNew_counter], ?_⟩
      intro wid hwid
      rw [hct] at hwid
      exact absurd hwid (List.not_mem_nil wid)
  · intro q hq
    obtain ⟨cid2, c2, hqc, hc2, hmem⟩ := homedB_iff.mp (hHomed q hq)
    refine homedB_iff.mpr ⟨cid2, c2, hqc, ?_, hmem⟩
    show alookup (createNewContainer s pos).1.containers cid2 = some c2
    rw [hcont]
    exact alookup_append_some _ hc2

/-! ## Moving and merging -/

theorem WF_moveWindowToContainer (s : MgrState) (wid : WId) (tcid : CId) (hwf : WF s) :
    WF (moveWindowToContainer s wid tcid) := by
  rcases hw : lookupW s wid with _ | w
  · rw [show moveWindowToContainer s wid tcid = s by
      unfold moveWindowToContainer
      rw [hw]]
    exact hwf
  · rcases hcid : w.containerId with _ | scid
    · rw [show moveWindowToContainer s wid tcid = s by
        unfold moveWindowToContainer
        rw [hw]
        dsimp only
        rw [hcid]]
      exact hwf
    · rcases hsc : lookupC s scid with _ | sc
      · rw [show moveWindowToContainer s wid tcid = s by
          unfold moveWindowToContainer
          rw [hw]
          dsimp only
          rw [hcid]
          dsimp only
          rw [hsc]]
        exact hwf
      · rcases htc : lookupC s tcid with _ | tc
        · rw [show moveWindowToContainer s wid tcid = s by
            unfold moveWindowToContainer
            rw [hw]
            dsimp only
            rw [hcid]
            dsimp only
            rw [hsc, htc]]
          exact hwf
        · have heq : moveWindowToContainer s wid tcid =
              cleanupContainerIfEmpty
                (focusWindowInContainer (renderWindowInContainer s wid tcid) wid tcid) scid := by
            unfold moveWindowToContainer
            rw [hw]
            dsimp only
            rw [hcid]
            dsimp only
            rw [hsc, htc]
          rw [heq]
          obtain ⟨⟨hWnod, hCnod, hCont, hHomed⟩, hNonempty⟩ := hwf
          have h0r : WF0 (renderWindowInContainer s wid tcid) :=
            WF0_render s wid tcid tc hWnod hCnod
              (fun p hp => ⟨(hCont p hp).1, (hCont p hp).2.1,
                fun wid' hm _ => (hCont p hp).2.2 wid' hm⟩)
              (fun q hq _ => hHomed q hq) ⟨w, hw⟩ htc
          have hner : ∀ p ∈ (renderWindowInContainer s wid tcid).containers,
              p.1 ≠ scid → p.2.tabs ≠ [] := by
            intro p hp hpne
            obtain ⟨q, hq, hpq, hptabs⟩ := mem_render_containers hp
            rw [hptabs]
            by_cases hqc : q.1 = tcid
            · rw [if_pos hqc]
              simp
            · rw [if_neg hqc]
              have hqnotin : wid ∉ q.2.tabs :=
                tab_unique ⟨hWnod, hCnod, hCont, hHomed⟩ hw hcid hq
                  (by rw [hpq] at hpne; exact hpne)
              rw [List.erase_of_not_mem hqnotin]
              exact hNonempty q hq
          have hshape := sameShape_focus (renderWindowInContainer s wid tcid) wid tcid
          exact WF_cleanupContainerIfEmpty _ scid (WF0_of_sameShape hshape h0r)
            (tabsPred_of_sameShape hshape h0r.2.1 (fun k tabs => k ≠ scid → tabs ≠ []) hner)

theorem WF_mergeContainers (s : MgrState) (scid tcid : CId) (hwf : WF s) :
    WF (mergeContainers s scid tcid) := by
  unfold mergeContainers
  by_cases h : scid = tcid
  · rw [if_pos h]
    exact hwf
  · rw [if_neg h]
    have hfold : ∀ (l : List WId) (u : MgrState), WF u →
        WF (l.foldl (fun st wid => moveWindowToContainer st wid tcid) u) := by
      intro l
      induction l with
      | nil => intro u hu; exact hu
      | cons x xs ih =>
          intro u hu
          exact ih _ (WF_moveWindowToContainer u x tcid hu)
    rcases lookupC s scid with _ | sc
    · exact hwf
    · rcases lookupC s tcid with _ | tc
      · exact hwf
      · rcases hm : (windowsOf s scid).map Prod.fst with _ | ⟨w0, rest⟩
        · exact hfold _ s hwf
        · exact WF_of_sameShape (sameShape_focus _ w0 tcid) (hfold _ s hwf)

/-! ## Tab reorder -/

theorem mem_insertAtTab {tg mv : WId} {bf : Bool} {l : List WId} {x : WId} :
    x ∈ insertAtTab tg mv bf l ↔ x ∈ l ∨ (x = mv ∧ tg ∈ l) := by
  induction l with
  | nil => simp [insertAtTab]
  | cons t rest ih =>
      by_cases ht : t = tg
      · subst ht
        cases bf <;> simp [insertAtTab] <;> tauto
      · simp only [insertAtTab, if_neg ht, List.mem_cons, ih]
        constructor
        · rintro (rfl | (hx | ⟨rfl, htg⟩))
          · exact Or.inl (Or.inl rfl)
          · exact Or.inl (Or.inr hx)
          · exact Or.inr ⟨rfl, Or.inr htg⟩
        · rintro ((rfl | hx) | ⟨rfl, (rfl | htg)⟩)
          · exact Or.inl rfl
          · exact Or.inr (Or.inl hx)
          · exact absurd rfl ht
          · exact Or.inr (Or.inr ⟨rfl, htg⟩)

theorem nodup_insertAtTab {tg mv : WId} {bf : Bool} {l : List WId}
    (hl : l.Nodup) (hmv : mv ∉ l) : (insertAtTab tg mv bf l).Nodup := by
  induction l with
  | nil => simp [insertAtTab]
  | cons t rest ih =>
      simp only [List.nodup_cons] at hl
      simp only [List.mem_cons] at hmv
      push_neg at hmv
      by_cases ht : t = tg
      · subst ht
        have h1 : t ∉ rest := hl.1
        have h2 : rest.Nodup := hl.2
        have h3 : mv ≠ t := hmv.1
        have h4 : mv ∉ rest := hmv.2
        cases bf <;> simp [insertAtTab, List.nodup_cons, h2, h4]
        · exact ⟨fun h => h3 h.symm, h1⟩
        · exact ⟨h3, h1⟩
      · simp only [insertAtTab, if_neg ht, List.nodup_cons]
        refine ⟨?_, ih hl.2 hmv.2⟩
        rw [mem_insertAtTab]
        rintro (hx | ⟨rfl, _⟩)
        · exact hl.1 hx
        · exact hmv.1 rfl

theorem WF_reorderTabDrop (s : MgrState) (d t : WId) (bf : Bool) (hwf : WF s) :
    WF (reorderTabDrop s d t bf) := by
  unfold reorderTabDrop
  by_cases hdt : d = t
  · rw [if_pos hdt]
    exact hwf
  · rw [if_neg hdt]
    rcases hd : lookupW s d with _ | dw
    · exact hwf
    · rcases ht : lookupW s t with _ | tw
      · exact hwf
      · show WF (if dw.containerId = tw.containerId then _ else s)
        by_cases hc : dw.containerId = tw.containerId
        · rw [if_pos hc]
          rcases hcid : dw.containerId with _ | cid
          · exact hwf
          · show WF (modifyC s cid fun cc =>
                { cc with tabs := insertAtTab t d bf (cc.tabs.erase d) })
            obtain ⟨⟨hWnod, hCnod, hCont, hHomed⟩, hNonempty⟩ := hwf
            obtain ⟨cidd, c, hcidd, hcc, hdm⟩ :=
              homed_of_lookupW ⟨hWnod, hCnod, hCont, hHomed⟩ hd
            rw [hcid] at hcidd
            obtain rfl := Option.some.inj hcidd
            obtain ⟨cidt, ct, hcidt, hct, htm⟩ :=
              homed_of_lookupW ⟨hWnod, hCnod, hCont, hHomed⟩ ht
            rw [← hc, hcid] at hcidt
            obtain rfl := Option.some.inj hcidt
            rw [hcc] at hct
            obtain rfl := Option.some.inj hct
            have hcnod : c.tabs.Nodup := (hCont _ (mem_of_alookup_eq_some hcc)).1
            have htinerase : t ∈ c.tabs.erase d :=
              (List.mem_erase_of_ne (fun he => hdt he.symm)).mpr htm
            have hdnotin : d ∉ c.tabs.erase d := fun hmem =>
              ((List.Nodup.mem_erase_iff hcnod).mp hmem).1 rfl
            refine ⟨⟨hWnod, by rw [modifyC_keys]; exact hCnod, ?_, ?_⟩, ?_⟩
            · intro p hp
              have hp2 : p ∈ amodify s.containers cid
                  (fun cc => { cc with tabs := insertAtTab t d bf (cc.tabs.erase d) }) := hp
              obtain ⟨q, hq, hfq⟩ := mem_amodify_iff.mp hp2
              by_cases hqc : q.1 = cid
              · have hqval : q.2 = c := by
                  have h0 : alookup s.containers q.1 = some q.2 :=
                    alookup_eq_some_of_mem hCnod hq
                  have hcc2 : alookup s.containers cid = some c := hcc
                  rw [hqc, hcc2] at h0
                  exact (Option.some.inj h0).symm
                rw [hfq, if_pos hqc]
                refine ⟨?_, (hCont q hq).2.1, ?_⟩
                · rw [hqval]
                  exact nodup_insertAtTab (hcnod.erase d) hdnotin
                · intro wid hwid
                  rw [hqval] at hwid
                  rcases mem_insertAtTab.mp hwid with hx | ⟨rfl, _⟩
                  · have : wid ∈ c.tabs := List.mem_of_mem_erase hx
                    have := (hCont q hq).2.2 wid (by rw [hqval]; exact this)
                    rw [hqc] at this ⊢
                    exact this
                  · show (lookupW s wid).map WindowData.containerId = some (some q.1)
                    rw [hd, hqc]
                    show some dw.containerId = some (some cid)
                    rw [hcid]
              · rw [hfq, if_neg hqc]
                exact hCont q hq
            · intro q hq
              obtain ⟨cid2, c2, hqc2, hc2, hmem2⟩ := homedB_iff.mp (hHomed q hq)
              by_cases h2 : cid2 = cid
              · subst h2
                rw [hcc] at hc2
                obtain rfl := Option.some.inj hc2
                refine homedB_iff.mpr
                  ⟨cid2, { c with tabs := insertAtTab t d bf (c.tabs.erase d) }, hqc2, ?_, ?_⟩
                · rw [lookupC_modifyC, if_pos rfl, hcc]
                  rfl
                · show q.1 ∈ insertAtTab t d bf (c.tabs.erase d)
                  rw [mem_insertAtTab]
                  by_cases hqd : q.1 = d
                  · exact Or.inr ⟨hqd, htinerase⟩
                  · exact Or.inl ((List.mem_erase_of_ne hqd).mpr hmem2)
              · refine homedB_iff.mpr ⟨cid2, c2, hqc2, ?_, hmem2⟩
                rw [lookupC_modifyC, if_neg h2]
                exact hc2
            · intro p hp
              have hp2 : p ∈ amodify s.containers cid
                  (fun cc => { cc with tabs := insertAtTab t d bf (cc.tabs.erase d) }) := hp
              obtain ⟨q, hq, hfq⟩ := mem_amodify_iff.mp hp2
              by_cases hqc : q.1 = cid
              · have hqval : q.2 = c := by
                  have h0 : alookup s.containers q.1 = some q.2 :=
                    alookup_eq_some_of_mem hCnod hq
                  have hcc2 : alookup s.containers cid = some c := hcc
                  rw [hqc, hcc2] at h0
                  exact (Option.some.inj h0).symm
                rw [hfq, if_pos hqc]
                show insertAtTab t d bf (q.2.tabs.erase d) ≠ []
                rw [hqval]
                exact List.ne_nil_of_mem (mem_insertAtTab.mpr (Or.inl htinerase))
              · rw [hfq, if_neg hqc]
                exact hNonempty q hq
        · rw [if_neg hc]
          exact hwf

/-! ## Creating a window -/

theorem WF_createWindow (s : MgrState) (wid : WId) (ttl cnt : String) (hwf : WF s)
    (hfresh : lookupW s wid = none) : WF (createWindow s wid ttl cnt) := by
  obtain ⟨⟨hWnod, hCnod, hCont, hHomed⟩, hNonempty⟩ := hwf
  have hkey : wid ∉ s.windows.map Prod.fst := alookup_eq_none_iff.mp hfresh
  set w0 : WindowData :=
    { title := ttl, content := cnt, isMinimized := false,
      isInPopup := false, popupOpen := false, containerId := none } with hw0
  set s1 : MgrState := { s with windows := s.windows ++ [(wid, w0)] } with hs1
  set s2 : MgrState := (createNewContainer s1 none).1 with hs2
  have heq : createWindow s wid ttl cnt =
      focusWindowInContainer
        (renderWindowInContainer s2 wid (s.containerIdCounter + 1))
        wid (s.containerIdCounter + 1) := by
    unfold createWindow
    dsimp only
    rw [aset_of_not_mem hkey]
    rfl
  rw [heq]
  have hcont : s2.containers = s.containers ++ [(s.containerIdCounter + 1, newContainerData s1 none)] := rfl
  have hwin2 : s2.windows = s.windows ++ [(wid, w0)] := rfl
  have hlookup2 : ∀ wid' : WId, wid' ≠ wid → lookupW s2 wid' = lookupW s wid' := by
    intro wid' hne
    show alookup (s.windows ++ [(wid, w0)]) wid' = alookup s.windows wid'
    rcases hlw : alookup s.windows wid' with _ | v
    · rw [alookup_append_none _ hlw]
      rw [alookup_cons, if_neg (fun h => hne h.symm)]
      rfl
    · exact alookup_append_some _ hlw
  have h5 : lookupW s2 wid = some w0 := by
    show alookup (s.windows ++ [(wid, w0)]) wid = some w0
    rw [alookup_append_none _ hfresh, alookup_cons, if_pos rfl]
  have hcfresh : alookup s.containers (s.containerIdCounter + 1) = none :=
    alookup_eq_none_iff.mpr (counter_fresh ⟨hWnod, hCnod, hCont, hHomed⟩)
  have h6 : lookupC s2 (s.containerIdCounter + 1) = some (newContainerData s1 none) := by
    show alookup (s.containers ++ [(s.containerIdCounter + 1, newContainerData s1 none)])
        (s.containerIdCounter + 1) = some (newContainerData s1 none)
    rw [alookup_append_none _ hcfresh, alookup_cons, if_pos rfl]
  have h0r : WF0 (renderWindowInContainer s2 wid (s.containerIdCounter + 1)) := by
    refine WF0_render s2 wid (s.containerIdCounter + 1) (newContainerData s1 none)
      ?_ ?_ ?_ ?_ ⟨w0, h5⟩ h6
    · rw [hwin2, List.map_append, List.nodup_append]
      refine ⟨hWnod, List.nodup_singleton _, ?_⟩
      intro a ha hb
      simp only [List.map_cons, List.map_nil, List.mem_cons, List.not_mem_nil, or_false] at hb
      rw [hb] at ha
      exact hkey ha
    · rw [hcont, List.map_append, List.nodup_append]
      refine ⟨hCnod, List.nodup_singleton _, ?_⟩
      intro a ha hb
      simp only [List.map_cons, List.map_nil, List.mem_cons, List.not_mem_nil, or_false] at hb
      rw [hb] at ha
      exact counter_fresh ⟨hWnod, hCnod, hCont, hHomed⟩ ha
    · intro p hp
      rw [hcont] at hp
      rcases List.mem_append.mp hp with hp | hp
      · obtain ⟨hnod, hle, hres⟩ := hCont p hp
        refine ⟨hnod, ?_, ?_⟩
        · show p.1 ≤ s.containerIdCounter + 1
          exact Nat.le_succ_of_le hle
        · intro wid' hm hne
          rw [hlookup2 wid' hne]
          exact hres wid' hm
      · simp only [List.mem_cons, List.not_mem_nil, or_false] at hp
        rw [hp]
        refine ⟨List.nodup_nil, ?_, ?_⟩
        · show s.containerIdCounter + 1 ≤ s2.containerIdCounter
          rw [hs2, createNew_counter]
        · intro wid' hm
          exact absurd hm (List.not_mem_nil wid')
    · intro q hq hqne
      rw [hwin2] at hq
      rcases List.mem_append.mp hq with hq | hq
      · obtain ⟨cid2, c2, hqc, hc2, hmem⟩ := homedB_iff.mp (hHomed q hq)
        refine homedB_iff.mpr ⟨cid2, c2, hqc, ?_, hmem⟩
        show alookup s2.containers cid2 = some c2
        rw [hcont]
        exact alookup_append_some _ hc2
      · simp only [List.mem_cons, List.not_mem_nil, or_false] at hq
        rw [hq] at hqne
        exact absurd rfl hqne
  refine WF_of_sameShape (sameShape_focus _ wid (s.containerIdCounter + 1)) ⟨h0r, ?_⟩
  intro p hp
  obtain ⟨q, hq, hpq, hptabs⟩ := mem_render_containers hp
  rw [hcont] at hq
  rcases List.mem_append.mp hq with hq | hq
  · have hqne : q.1 ≠ s.containerIdCounter + 1 := by
      intro he
      have hle2 : q.1 ≤ s.containerIdCounter := (hCont q hq).2.1
      rw [he] at hle2
      exact Nat.not_succ_le_self _ hle2
    rw [hptabs, if_neg hqne]
    have hnot : wid ∉ q.2.tabs := tab_dead ⟨hWnod, hCnod, hCont, hHomed⟩ hfresh hq
    rw [List.erase_of_not_mem hnot]
    exact hNonempty q hq
  · simp only [List.mem_cons, List.not_mem_nil, or_false] at hq
    rw [hptabs, hq, if_pos rfl]
    simp

/-! ## Drop-outside detach -/

theorem visible_keys_nodup (s : MgrState) (cid : CId)
    (hWnod : (s.windows.map Prod.fst).Nodup) :
    ((visibleWindowsOf s cid).map Prod.fst).Nodup :=
  hWnod.sublist ((List.filter_sublist _).map Prod.fst)

theorem exists_other_visible {s : MgrState} {cid : CId} {wid : WId}
    (hWnod : (s.windows.map Prod.fst).Nodup)
    (hlen : 1 < (visibleWindowsOf s cid).length) :
    ∃ q ∈ visibleWindowsOf s cid, q.1 ≠ wid := by
  rcases hv : visibleWindowsOf s cid with _ | ⟨a, rest⟩
  · rw [hv] at hlen
    simp at hlen
  · rcases hr : rest with _ | ⟨b, t⟩
    · rw [hv, hr] at hlen
      simp at hlen
    · have hnod := visible_keys_nodup s cid hWnod
      rw [hv, hr] at hnod
      simp only [List.map_cons, List.nodup_cons, List.mem_cons, List.mem_map] at hnod
      have hab : a.1 ≠ b.1 := by
        intro he
        exact hnod.1 (Or.inl he)
      by_cases ha : a.1 = wid
      · refine ⟨b, ?_, ?_⟩
        · exact List.mem_cons_of_mem _ (List.mem_cons_self _ _)
        · intro hb
          exact hab (by rw [ha, hb])
      · exact ⟨a, List.mem_cons_self _ _, ha⟩

theorem WF_popOutWindowToPosition (s : MgrState) (wid : WId) (pos : Int × Int) (hwf : WF s) :
    WF (popOutWindowToPosition s wid pos) := by
  rcases hw : lookupW s wid with _ | w
  · rw [show popOutWindowToPosition s wid pos = s by
      unfold popOutWindowToPosition
      rw [hw]]
    exact hwf
  · rcases hcid : w.containerId with _ | scid
    · rw [show popOutWindowToPosition s wid pos = s by
        unfold popOutWindowToPosition
        rw [hw]
        dsimp only
        rw [hcid]]
      exact hwf
    · rcases hsc : lookupC s scid with _ | sc
      · rw [show popOutWindowToPosition s wid pos = s by
          unfold popOutWindowToPosition
          rw [hw]
          dsimp only
          rw [hcid]
          dsimp only
          rw [hsc]]
        exact hwf
      · by_cases hvis : (visibleWindowsOf s scid).length ≤ 1
        · rw [show popOutWindowToPosition s wid pos =
              constrainContainer
                (modifyC s scid fun c => { c with left := pos.1, top := pos.2 }) scid by
            unfold popOutWindowToPosition
            rw [hw]
            dsimp only
            rw [hcid]
            dsimp only
            rw [hsc]
            dsimp only
            rw [if_pos hvis]]
          exact WF_of_sameShape
            (sameShape_trans
              (sameShape_modifyC s scid (fun c => { c with left := pos.1, top := pos.2 })
                fun _ => rfl)
              (sameShape_constrain _ scid)) hwf
        · obtain ⟨⟨hWnod, hCnod, hCont, hHomed⟩, hNonempty⟩ := hwf
          set s1 : MgrState := (createNewContainer s (some pos)).1 with hs1
          set ncid : CId := s.containerIdCounter + 1 with hncid
          set s2 : MgrState := constrainContainer s1 ncid with hs2
          set s3 : MgrState := renderWindowInContainer s2 wid ncid with hs3
          set s4 : MgrState := focusWindowInContainer s3 wid ncid with hs4
          have heq : popOutWindowToPosition s wid pos =
              (match (visibleWindowsOf s4 scid).head? with
               | some q => focusWindowInContainer s4 q.1 scid
               | none => s4) := by
            unfold popOutWindowToPosition
            rw [hw]
            dsimp only
            rw [hcid]
            dsimp only
            rw [hsc]
            dsimp only
            rw [if_neg hvis]
            rfl
          rw [heq]
          have hwf02 : WF0 s2 :=
            WF0_of_sameShape (sameShape_constrain s1 ncid)
              (WF0_createNewContainer s (some pos) ⟨hWnod, hCnod, hCont, hHomed⟩)
          have hlw2 : ∀ wid' : WId, lookupW s2 wid' = lookupW s wid' := fun _ => rfl
          have h61 : lookupC s1 ncid = some (newContainerData s (some pos)) := by
            show alookup (s.containers ++ [(ncid, newContainerData s (some pos))]) ncid = _
            rw [alookup_append_none _
              (alookup_eq_none_iff.mpr (counter_fresh ⟨hWnod, hCnod, hCont, hHomed⟩)),
              alookup_cons, if_pos rfl]
          have h6 : ∃ tc, lookupC s2 ncid = some tc := by
            rw [hs2]
            unfold constrainContainer
            rw [lookupC_modifyC, if_pos rfl, h61]
            exact ⟨_, rfl⟩
          obtain ⟨tc, h6⟩ := h6
          have h0r : WF0 s3 := by
            rw [hs3]
            refine WF0_render s2 wid ncid tc hwf02.1 hwf02.2.1 ?_ ?_ ⟨w, hlw2 wid ▸ hw⟩ h6
            · intro p hp
              exact ⟨(hwf02.2.2.1 p hp).1, (hwf02.2.2.1 p hp).2.1,
                fun wid' hm _ => (hwf02.2.2.1 p hp).2.2 wid' hm⟩
            · intro q hq _
              exact hwf02.2.2.2 q hq
          have hnon : ∀ p ∈ s3.containers, p.2.tabs ≠ [] := by
            intro p hp
            obtain ⟨q, hq, hpq, hptabs⟩ := mem_render_containers hp
            have hq2 : q ∈ amodify s1.containers ncid
                (fun c => let p2 := constrainToViewport s1.viewW s1.viewH c.width c.left c.top
                          { c with left := p2.1, top := p2.2 }) := hq
            obtain ⟨q0, hq0, hfq0⟩ := mem_amodify_iff.mp hq2
            have hq0mem : q0 ∈ s.containers ++ [(ncid, newContainerData s (some pos))] := hq0
            rcases List.mem_append.mp hq0mem with hq0m | hq0m
            · have hq0ne : q0.1 ≠ ncid := by
                intro he
                have hle2 : q0.1 ≤ s.containerIdCounter := (hCont q0 hq0m).2.1
                rw [hncid] at he
                rw [he] at hle2
                exact Nat.not_succ_le_self _ hle2
              have hqq0 : q.1 = q0.1 ∧ q.2.tabs = q0.2.tabs := by
                rw [hfq0]
                rw [if_neg hq0ne]
                exact ⟨rfl, rfl⟩
              rw [hptabs, hqq0.1, if_neg hq0ne, hqq0.2]
              by_cases hq0s : q0.1 = scid
              · obtain ⟨qv, hqv, hqvne⟩ := @exists_other_visible s scid wid hWnod (by omega)
                obtain ⟨hqvw, hqvc, hqvp⟩ := mem_visibleWindowsOf_iff.mp hqv
                obtain ⟨cid2, c2, hqc2, hc2, hmem2⟩ := homedB_iff.mp (hHomed qv hqvw)
                rw [hqvc] at hqc2
                obtain rfl := Option.some.inj hqc2
                rw [← hq0s] at hc2
                have hc2q0 : c2 = q0.2 := by
                  have h0 : alookup s.containers q0.1 = some q0.2 :=
                    alookup_eq_some_of_mem hCnod hq0m
                  rw [show lookupC s q0.1 = alookup s.containers q0.1 from rfl] at hc2
                  rw [h0] at hc2
                  exact (Option.some.inj hc2).symm
                rw [← hc2q0]
                exact List.ne_nil_of_mem ((List.mem_erase_of_ne hqvne).mpr hmem2)
              · have hnot : wid ∉ q0.2.tabs :=
                  tab_unique ⟨hWnod, hCnod, hCont, hHomed⟩ hw hcid hq0m hq0s
                rw [List.erase_of_not_mem hnot]
                exact hNonempty q0 hq0m
            · simp only [List.mem_cons, List.not_mem_nil, or_false] at hq0m
              have hq1 : q.1 = ncid := by
                rw [hfq0, hq0m]
                split <;> rfl
              rw [hptabs, hq1, if_pos rfl]
              simp
          have hshape4 : SameShape s3 s4 := sameShape_focus s3 wid ncid
          rcases (visibleWindowsOf s4 scid).head? with _ | q
          · exact WF_of_sameShape hshape4 ⟨h0r, hnon⟩
          · exact WF_of_sameShape (sameShape_trans hshape4 (sameShape_focus s4 q.1 scid))
              ⟨h0r, hnon⟩

theorem WF_handleTabDragEnd (s : MgrState) (wid : WId) (mx my : Int) (hwf : WF s) :
    WF (handleTabDragEnd s wid mx my) := by
  show WF (if (s.containers.any fun p => decide (rectContains (rectOf p.2) mx my)) = true
      then s else popOutWindowToPosition s wid (mx - 300, my - 20))
  split
  · exact hwf
  · exact WF_popOutWindowToPosition s wid (mx - 300, my - 20) hwf

/-! ## Claim C1: tab-order consistency after every public operation -/

/-- The consistency property of claim C1, for one state: every live
container's tab order has no duplicate window ids, and every id in a
container's tab order resolves to a live window whose `containerId` is
that container's id. -/
def tabsConsistent (s : MgrState) : Prop :=
  ∀ p ∈ s.containers, p.2.tabs.Nodup ∧
    ∀ wid ∈ p.2.tabs, ∃ w, lookupW s wid = some w ∧ w.containerId = some p.1

theorem tabsConsistent_of_WF {s : MgrState} (h : WF s) : tabsConsistent s :=
  fun p hp => ⟨(h.1.2.2.1 p hp).1, fun wid hw => resolve_of_mem h.1 hp hw⟩

/-- Claim C1: starting from any well-formed manager state, after each of the
public operations — `createWindow` (with a fresh window id), `closeWindow`,
`moveWindowToContainer`, `mergeContainers`, `minimizeContainer`,
`restoreContainer`, tab reorder (`reorderTab` drop), and drop-outside detach
(`handleTabDragEnd`) — every live container's tab order contains no duplicate
window ids, and every id appearing in a tab order resolves to a live window
whose `containerId` equals that container's id. -/
theorem tab_order_invariant (s : MgrState) (hwf : WF s)
    (wid d t : WId) (cid scid tcid : CId) (bf : Bool) (ttl cnt : String)
    (mx my : Int) (hfresh : lookupW s wid = none) :
    tabsConsistent (createWindow s wid ttl cnt) ∧
    tabsConsistent (closeWindow s wid) ∧
    tabsConsistent (moveWindowToContainer s wid tcid) ∧
    tabsConsistent (mergeContainers s scid tcid) ∧
    tabsConsistent (minimizeContainer s cid) ∧
    tabsConsistent (restoreContainer s cid) ∧
    tabsConsistent (reorderTabDrop s d t bf) ∧
    tabsConsistent (handleTabDragEnd s wid mx my) :=
  ⟨tabsConsistent_of_WF (WF_createWindow s wid ttl cnt hwf hfresh),
   tabsConsistent_of_WF (WF_closeWindow s wid hwf),
   tabsConsistent_of_WF (WF_moveWindowToContainer s wid tcid hwf),
   tabsConsistent_of_WF (WF_mergeContainers s scid tcid hwf),
   tabsConsistent_of_WF (WF_minimizeContainer s cid hwf),
   tabsConsistent_of_WF (WF_restoreContainer s cid hwf),
   tabsConsistent_of_WF (WF_reorderTabDrop s d t bf hwf),
   tabsConsistent_of_WF (WF_handleTabDragEnd s wid mx my hwf)⟩

/-- Concrete instantiation of the C1 invariant theorem: a two-window,
two-container state built by the manager itself. -/
theorem tab_order_invariant_witness :
    WF (createWindow (createWindow (initState 1000 800) "w1" "A" "a") "w2" "B" "b") ∧
    lookupW (createWindow (createWindow (initState 1000 800) "w1" "A" "a") "w2" "B" "b")
      "w3" = none ∧
    tabsConsistent (closeWindow
      (createWindow (createWindow (initState 1000 800) "w1" "A" "a") "w2" "B" "b") "w3") := by
  have h := tab_order_invariant
    (createWindow (createWindow (initState 1000 800) "w1" "A" "a") "w2" "B" "b")
    (by decide) "w3" "w1" "w2" 1 1 2 true "T" "c" 5 5 (by decide)
  exact ⟨by decide, by decide, h.2.1⟩

/-! ## Focus lookup helpers -/

theorem focus_windows (s : MgrState) (wid : WId) (cid : CId) :
    (focusWindowInContainer s wid cid).windows = s.windows := by
  unfold focusWindowInContainer
  rcases lookupC s cid with _ | c
  · rfl
  · rfl

theorem lookupW_focus (s : MgrState) (wid : WId) (cid : CId) (wid' : WId) :
    lookupW (focusWindowInContainer s wid cid) wid' = lookupW s wid' := by
  show alookup (focusWindowInContainer s wid cid).windows wid' = alookup s.windows wid'
  rw [focus_windows]

theorem focus_ckeys (s : MgrState) (wid : WId) (cid : CId) :
    (focusWindowInContainer s wid cid).containers.map Prod.fst
      = s.containers.map Prod.fst := by
  unfold focusWindowInContainer
  rcases lookupC s cid with _ | c
  · rfl
  · show ((bringContainerToFront
        (modifyC s cid fun c => { c with activeWindowId := some wid }) cid).containers.map
          Prod.fst) = s.containers.map Prod.fst
    unfold bringContainerToFront
    dsimp only
    rw [modifyC_keys, modifyC_keys]

theorem lookupC_focus (s : MgrState) (wid : WId) (cid cid' : CId) (h : cid' ≠ cid) :
    lookupC (focusWindowInContainer s wid cid) cid' = lookupC s cid' := by
  unfold focusWindowInContainer
  rcases lookupC s cid with _ | c
  · rfl
  · show lookupC (bringContainerToFront
        (modifyC s cid fun c => { c with activeWindowId := some wid }) cid) cid'
      = lookupC s cid'
    unfold bringContainerToFront
    dsimp only
    rw [lookupC_modifyC, if_neg h, lookupC_modifyC, if_neg h]

theorem focus_self {s : MgrState} {wid : WId} {cid : CId} {c : ContainerData}
    (hc : lookupC s cid = some c) :
    ∃ z, lookupC (focusWindowInContainer s wid cid) cid =
      some { c with activeWindowId := some wid, zIndex := z } := by
  unfold focusWindowInContainer
  rw [hc]
  dsimp only
  unfold bringContainerToFront
  dsimp only
  rw [lookupC_modifyC, if_pos rfl, lookupC_modifyC, if_pos rfl, hc]
  exact ⟨_, rfl⟩

/-! ## Claim C10: createWindow always allocates a brand-new container -/

/-- Claim C10: every `createWindow` call with a fresh window id allocates a
brand-new container (id `containerIdCounter + 1`, never previously live):
the new window is its sole tab and its active window, the window record
carries the new container id and the given title and content, the container
key list grows by exactly the new id at the end, and every pre-existing
container's tab membership is unchanged. -/
theorem createWindow_fresh_container (s : MgrState) (wid : WId) (ttl cnt : String)
    (hwf : WF s) (hfresh : lookupW s wid = none) :
    s.containerIdCounter + 1 ∉ s.containers.map Prod.fst ∧
    (createWindow s wid ttl cnt).containers.map Prod.fst
        = s.containers.map Prod.fst ++ [s.containerIdCounter + 1] ∧
    (∃ c, lookupC (createWindow s wid ttl cnt) (s.containerIdCounter + 1) = some c ∧
        c.tabs = [wid] ∧ c.activeWindowId = some wid) ∧
    (∃ w, lookupW (createWindow s wid ttl cnt) wid = some w ∧
        w.containerId = some (s.containerIdCounter + 1) ∧ w.title = ttl ∧ w.content = cnt) ∧
    (∀ p ∈ s.containers, ∃ c, lookupC (createWindow s wid ttl cnt) p.1 = some c ∧
        c.tabs = p.2.tabs) := by
  obtain ⟨⟨hWnod, hCnod, hCont, hHomed⟩, hNonempty⟩ := hwf
  have hkey : wid ∉ s.windows.map Prod.fst := alookup_eq_none_iff.mp hfresh
  set w0 : WindowData :=
    { title := ttl, content := cnt, isMinimized := false,
      isInPopup := false, popupOpen := false, containerId := none } with hw0
  set s1 : MgrState := { s with windows := s.windows ++ [(wid, w0)] } with hs1
  set s2 : MgrState := (createNewContainer s1 none).1 with hs2
  have heq : createWindow s wid ttl cnt =
      focusWindowInContainer
        (renderWindowInContainer s2 wid (s.containerIdCounter + 1))
        wid (s.containerIdCounter + 1) := by
    unfold createWindow
    dsimp only
    rw [aset_of_not_mem hkey]
    rfl
  have hcont : s2.containers
      = s.containers ++ [(s.containerIdCounter + 1, newContainerData s1 none)] := rfl
  have h5 : lookupW s2 wid = some w0 := by
    show alookup (s.windows ++ [(wid, w0)]) wid = some w0
    rw [alookup_append_none _ hfresh, alookup_cons, if_pos rfl]
  have hcfresh : alookup s.containers (s.containerIdCounter + 1) = none :=
    alookup_eq_none_iff.mpr (counter_fresh ⟨hWnod, hCnod, hCont, hHomed⟩)
  have h6 : lookupC s2 (s.containerIdCounter + 1) = some (newContainerData s1 none) := by
    show alookup (s.containers ++ [(s.containerIdCounter + 1, newContainerData s1 none)])
        (s.containerIdCounter + 1) = some (newContainerData s1 none)
    rw [alookup_append_none _ hcfresh, alookup_cons, if_pos rfl]
  refine ⟨counter_fresh ⟨hWnod, hCnod, hCont, hHomed⟩, ?_, ?_, ?_, ?_⟩
  · rw [heq, focus_ckeys, render_ckeys, hcont, List.map_append]
    rfl
  · rw [heq]
    have hc3 : lookupC (renderWindowInContainer s2 wid (s.containerIdCounter + 1))
        (s.containerIdCounter + 1)
        = some { newContainerData s1 none with tabs := [wid] } := by
      rw [lookupC_render, if_pos rfl, h6]
      rfl
    obtain ⟨z, hz⟩ := focus_self hc3
    exact ⟨_, hz, rfl, rfl⟩
  · rw [heq, lookupW_focus, lookupW_render, if_pos rfl, h5]
    exact ⟨_, rfl, rfl, rfl, rfl⟩
  · intro p hp
    have hple : p.1 ≤ s.containerIdCounter := (hCont p hp).2.1
    have hpne : p.1 ≠ s.containerIdCounter + 1 := by
      intro he
      rw [he] at hple
      exact Nat.not_succ_le_self _ hple
    have hnot : wid ∉ p.2.tabs := by
      intro hmem
      obtain ⟨w, hlw, _⟩ := resolve_of_mem ⟨hWnod, hCnod, hCont, hHomed⟩ hp hmem
      rw [hfresh] at hlw
      exact Option.noConfusion hlw
    have hs2p : lookupC s2 p.1 = some p.2 := by
      show alookup (s.containers ++ [(s.containerIdCounter + 1, newContainerData s1 none)]) p.1
        = some p.2
      exact alookup_append_some _ (alookup_eq_some_of_mem hCnod hp)
    rw [heq, lookupC_focus _ _ _ _ hpne, lookupC_render, if_neg hpne, hs2p]
    exact ⟨_, rfl, List.erase_of_not_mem hnot⟩

/-- Concrete instantiation of the C10 theorem: creating a second window in a
one-window state allocates container 2 alongside container 1. -/
theorem createWindow_fresh_container_witness :
    WF (createWindow (initState 1000 800) "w1" "A" "a") ∧
    lookupW (createWindow (initState 1000 800) "w1" "A" "a") "w2" = none ∧
    (createWindow (createWindow (initState 1000 800) "w1" "A" "a") "w2" "B" "b").containers.map
      Prod.fst = [1, 2] := by
  have h := createWindow_fresh_container (createWindow (initState 1000 800) "w1" "A" "a")
    "w2" "B" "b" (by decide) (by decide)
  refine ⟨by decide, by decide, ?_⟩
  rw [h.2.1]
  rfl

/-! ## Claim C4 support: the cleanup step of closeWindow -/

theorem cleanup_delete {u : MgrState} {cid : CId} {cu : ContainerData}
    (hcu : lookupC u cid = some cu) (hemp : windowsOf u cid = []) :
    cleanupContainerIfEmpty u cid = { u with containers := adelete u.containers cid } := by
  unfold cleanupContainerIfEmpty
  rw [hcu]
  dsimp only
  rw [hemp]
  rfl

theorem cleanup_keep {u : MgrState} {cid : CId} {cu : ContainerData}
    (hcu : lookupC u cid = some cu) (hnemp : windowsOf u cid ≠ []) :
    cleanupContainerIfEmpty u cid = updateContainerVisibility u cid := by
  unfold cleanupContainerIfEmpty
  rw [hcu]
  dsimp only
  rw [if_neg (fun h => hnemp (List.isEmpty_iff.mp h))]

theorem windowsOf_eq_of_windows_eq {u v : MgrState} (h : u.windows = v.windows)
    (cid : CId) : windowsOf u cid = windowsOf v cid := by
  unfold windowsOf
  rw [h]

theorem updateVis_windows (u : MgrState) (cid : CId) :
    (updateContainerVisibility u cid).windows = u.windows := by
  unfold updateContainerVisibility
  rcases lookupC u cid with _ | c
  · rfl
  · rfl

theorem lookupC_updateVis_ne (u : MgrState) (cid cid' : CId) (h : cid' ≠ cid) :
    lookupC (updateContainerVisibility u cid) cid' = lookupC u cid' := by
  unfold updateContainerVisibility
  rcases lookupC u cid with _ | c
  · rfl
  · show lookupC (modifyC u cid fun c =>
      { c with visible := !(visibleWindowsOf u cid).isEmpty }) cid' = lookupC u cid'
    rw [lookupC_modifyC, if_neg h]

theorem lookupC_updateVis_self {u : MgrState} {cid : CId} {cu : ContainerData}
    (hcu : lookupC u cid = some cu) :
    lookupC (updateContainerVisibility u cid) cid =
      some { cu with visible := !(visibleWindowsOf u cid).isEmpty } := by
  unfold updateContainerVisibility
  rw [hcu]
  dsimp only
  rw [lookupC_modifyC, if_pos rfl, hcu]
  rfl

theorem closeWindow_cleanup_spec (s : MgrState) (wid : WId) (w : WindowData) (cid : CId)
    (u : MgrState)
    (hwf : WF s) (hw : lookupW s wid = some w) (hcid : w.containerId = some cid)
    (hu1 : u.windows = adelete s.windows wid)
    (hu2 : ∃ c3, lookupC u cid = some c3)
    (hu3 : ∀ cid', cid' ≠ cid →
      lookupC u cid' = (lookupC s cid').map fun c => { c with tabs := c.tabs.erase wid })
    (hukeys : u.containers.map Prod.fst = s.containers.map Prod.fst) :
    ((∀ q ∈ s.windows, q.2.containerId = some cid → q.1 = wid) →
      lookupW (cleanupContainerIfEmpty u cid) wid = none ∧
      lookupC (cleanupContainerIfEmpty u cid) cid = none ∧
      (cleanupContainerIfEmpty u cid).containers.length + 1 = s.containers.length) ∧
    (∀ cid', (∃ c', lookupC s cid' = some c') →
      (lookupC (cleanupContainerIfEmpty u cid) cid' = none ↔
        windowsOf (cleanupContainerIfEmpty u cid) cid' = [])) := by
  obtain ⟨c3, hc3⟩ := hu2
  obtain ⟨cid0, c, hcid0, hc, hmemc⟩ := homed_of_lookupW hwf.1 hw
  rw [hcid] at hcid0
  obtain rfl := Option.some.inj hcid0
  have hulen : u.containers.length = s.containers.length := by
    rw [← List.length_map u.containers Prod.fst, hukeys, List.length_map]
  have hcidmem : cid ∈ u.containers.map Prod.fst := by
    rw [hukeys]
    exact List.mem_map.mpr ⟨(cid, c), mem_of_alookup_eq_some hc, rfl⟩
  have hunod : (u.containers.map Prod.fst).Nodup := by
    rw [hukeys]
    exact hwf.1.2.1
  have hsurv : ∀ cid' c', lookupC s cid' = some c' → cid' ≠ cid →
      windowsOf u cid' ≠ [] := by
    intro cid' c' hc' hne
    have hmem' : (cid', c') ∈ s.containers := mem_of_alookup_eq_some hc'
    have htne : c'.tabs ≠ [] := hwf.2 (cid', c') hmem'
    rcases ht : c'.tabs with _ | ⟨t, rest⟩
    · exact absurd ht htne
    · have htm : t ∈ c'.tabs := by
        rw [ht]
        exact List.mem_cons_self _ _
      obtain ⟨w', hlw', hwc'⟩ := resolve_of_mem hwf.1 hmem' htm
      have htwid : t ≠ wid := by
        intro he
        rw [he, hw] at hlw'
        obtain rfl := Option.some.inj hlw'
        rw [hcid] at hwc'
        exact hne (Option.some.inj hwc').symm
      have hmemu : (t, w') ∈ u.windows := by
        rw [hu1]
        exact mem_adelete_iff.mpr ⟨mem_of_alookup_eq_some hlw', htwid⟩
      exact List.ne_nil_of_mem (mem_windowsOf_iff.mpr ⟨hmemu, hwc'⟩)
  constructor
  · intro hone
    have hemp : windowsOf u cid = [] := by
      rcases hWo : windowsOf u cid with _ | ⟨q, t⟩
      · rfl
      · exfalso
        have hqm : q ∈ windowsOf u cid := by
          rw [hWo]
          exact List.mem_cons_self _ _
        obtain ⟨hqu, hqc⟩ := mem_windowsOf_iff.mp hqm
        rw [hu1] at hqu
        obtain ⟨hqs, hqne⟩ := mem_adelete_iff.mp hqu
        exact hqne (hone q hqs hqc)
    rw [cleanup_delete hc3 hemp]
    refine ⟨?_, ?_, ?_⟩
    · show alookup u.windows wid = none
      rw [hu1, alookup_adelete, if_pos rfl]
    · show alookup (adelete u.containers cid) cid = none
      rw [alookup_adelete, if_pos rfl]
    · show (adelete u.containers cid).length + 1 = s.containers.length
      rw [adelete_length_of_mem hunod hcidmem, hulen]
  · intro cid' ⟨c', hc'⟩
    by_cases hne : cid' = cid
    · subst hne
      by_cases hemp : windowsOf u cid' = []
      · rw [cleanup_delete hc3 hemp]
        constructor
        · intro _
          show windowsOf u cid' = []
          exact hemp
        · intro _
          show alookup (adelete u.containers cid') cid' = none
          rw [alookup_adelete, if_pos rfl]
      · rw [cleanup_keep hc3 hemp]
        constructor
        · intro hnone
          rw [lookupC_updateVis_self hc3] at hnone
          exact absurd hnone (Option.noConfusion)
        · intro hWo
          exfalso
          rw [windowsOf_eq_of_windows_eq (updateVis_windows u cid') cid'] at hWo
          exact hemp hWo
    · by_cases hemp : windowsOf u cid = []
      · rw [cleanup_delete hc3 hemp]
        constructor
        · intro hnone
          exfalso
          have h2 : alookup (adelete u.containers cid) cid' = none := hnone
          rw [alookup_adelete, if_neg hne] at h2
          have h3 : lookupC u cid' = none := h2
          rw [hu3 cid' hne, hc'] at h3
          exact Option.noConfusion h3
        · intro hWo
          exfalso
          exact hsurv cid' c' hc' hne (by exact hWo)
      · rw [cleanup_keep hc3 hemp]
        constructor
        · intro hnone
          rw [lookupC_updateVis_ne u cid cid' hne, hu3 cid' hne, hc'] at hnone
          exact Option.noConfusion hnone
        · intro hWo
          exfalso
          rw [windowsOf_eq_of_windows_eq (updateVis_windows u cid) cid'] at hWo
          exact hsurv cid' c' hc' hne hWo

/-- Claim C4: for a live window homed to container `cid`, if it is the only
window whose `containerId` is `cid` then `closeWindow` deletes both the
window record and the container, so the container count decreases by exactly
one; and in general, after `closeWindow` a live container of the pre-state
is gone exactly when its set of member windows has become empty. -/
theorem closeWindow_container_lifecycle (s : MgrState) (wid : WId) (w : WindowData) (cid : CId)
    (hwf : WF s) (hw : lookupW s wid = some w) (hcid : w.containerId = some cid) :
    ((∀ q ∈ s.windows, q.2.containerId = some cid → q.1 = wid) →
      lookupW (closeWindow s wid) wid = none ∧
      lookupC (closeWindow s wid) cid = none ∧
      (closeWindow s wid).containers.length + 1 = s.containers.length) ∧
    (∀ cid', (∃ c', lookupC s cid' = some c') →
      (lookupC (closeWindow s wid) cid' = none ↔
        windowsOf (closeWindow s wid) cid' = [])) := by
  have heq : closeWindow s wid =
      cleanupContainerIfEmpty
        (match lookupC (stripWindow s wid) cid with
         | none => stripWindow s wid
         | some c2 =>
             if c2.activeWindowId = some wid then
               modifyC (stripWindow s wid) cid fun cc =>
                 { cc with activeWindowId :=
                     ((visibleWindowsOf (stripWindow s wid) cid).head?).map Prod.fst }
             else stripWindow s wid) cid := by
    unfold closeWindow stripWindow
    rw [hw]
    dsimp only
    rw [hcid]
  rw [heq]
  obtain ⟨cid0, c, hcid0, hc, hmemc⟩ := homed_of_lookupW hwf.1 hw
  rw [hcid] at hcid0
  obtain rfl := Option.some.inj hcid0
  have hstripc : lookupC (stripWindow s wid) cid
      = some { c with tabs := c.tabs.erase wid } := by
    rw [lookupC_stripWindow, hc]
    rfl
  rw [hstripc]
  dsimp only
  by_cases hact :
      ({ c with tabs := c.tabs.erase wid } : ContainerData).activeWindowId = some wid
  · rw [if_pos hact]
    refine closeWindow_cleanup_spec s wid w cid _ hwf hw hcid rfl ?_ ?_ ?_
    · refine ⟨{ c with tabs := c.tabs.erase wid, activeWindowId :=
          ((visibleWindowsOf (stripWindow s wid) cid).head?).map Prod.fst }, ?_⟩
      rw [lookupC_modifyC, if_pos rfl, hstripc]
      rfl
    · intro cid' hne
      rw [lookupC_modifyC, if_neg hne, lookupC_stripWindow]
    · rw [modifyC_keys]
      exact eraseTab_keys s wid
  · rw [if_neg hact]
    refine closeWindow_cleanup_spec s wid w cid _ hwf hw hcid rfl
      ⟨_, hstripc⟩ (fun cid' _ => lookupC_stripWindow s wid cid') ?_
    exact eraseTab_keys s wid

/-- Concrete instantiation of the C4 theorem: closing the only window of a
one-window, one-container state removes the container. -/
theorem closeWindow_container_lifecycle_witness :
    WF (createWindow (initState 1000 800) "w1" "A" "a") ∧
    (closeWindow (createWindow (initState 1000 800) "w1" "A" "a") "w1").containers.length + 1
      = (createWindow (initState 1000 800) "w1" "A" "a").containers.length := by
  have h := closeWindow_container_lifecycle (createWindow (initState 1000 800) "w1" "A" "a")
    "w1"
    { title := "A", content := "a", isMinimized := false, isInPopup := false,
      popupOpen := false, containerId := some 1 } 1 (by decide) (by decide) rfl
  exact ⟨by decide, (h.1 (by decide)).2.2⟩

/-! ## Claim C6 support: popOutWindow and onPopupClosed -/

theorem lookupW_updateVis (u : MgrState) (cid : CId) (wid' : WId) :
    lookupW (updateContainerVisibility u cid) wid' = lookupW u wid' := by
  show alookup (updateContainerVisibility u cid).windows wid' = alookup u.windows wid'
  rw [updateVis_windows]

theorem popOut_windows {s : MgrState} {wid : WId} {w : WindowData}
    (hw : lookupW s wid = some w) :
    (popOutWindow s wid).windows =
      (modifyW s wid fun ww => { ww with isInPopup := true, popupOpen := true }).windows := by
  unfold popOutWindow
  rw [hw]
  dsimp only
  rcases w.containerId with _ | scid
  · rfl
  · dsimp only
    rcases lookupC (modifyW s wid fun ww =>
        { ww with isInPopup := true, popupOpen := true }) scid with _ | c
    · rfl
    · dsimp only
      by_cases hact : c.activeWindowId = some wid
      · rw [if_pos hact]
        rcases (visibleWindowsOf (updateContainerVisibility
            (modifyW s wid fun ww => { ww with isInPopup := true, popupOpen := true })
            scid) scid).head? with _ | q
        · exact updateVis_windows _ scid
        · rw [focus_windows, updateVis_windows]
      · rw [if_neg hact]
        exact updateVis_windows _ scid

theorem lookupW_popOut {s : MgrState} {wid : WId} {w : WindowData}
    (hw : lookupW s wid = some w) :
    lookupW (popOutWindow s wid) wid
      = some { w with isInPopup := true, popupOpen := true } := by
  show alookup (popOutWindow s wid).windows wid = _
  rw [popOut_windows hw]
  show lookupW (modifyW s wid fun ww => { ww with isInPopup := true, popupOpen := true }) wid = _
  rw [lookupW_modifyW, if_pos rfl, hw]
  rfl

theorem onPopupClosed_homeAlive {s' : MgrState} {wid : WId} {home : CId}
    {w1 : WindowData} {ch : ContainerData}
    (hw1 : lookupW s' wid = some w1) (hch : lookupC s' home = some ch) :
    ∃ w2, lookupW (onPopupClosed s' wid home) wid = some w2 ∧
      w2.isInPopup = false ∧ w2.popupOpen = false ∧ w2.containerId = w1.containerId ∧
      w2.title = w1.title ∧ w2.content = w1.content := by
  unfold onPopupClosed
  rw [hw1]
  dsimp only
  have hc1 : lookupC (modifyW s' wid fun ww =>
      { ww with isInPopup := false, popupOpen := false }) home = some ch := hch
  rw [hc1]
  dsimp only
  have hw2 : lookupW (modifyW s' wid fun ww =>
      { ww with isInPopup := false, popupOpen := false }) wid
      = some { w1 with isInPopup := false, popupOpen := false } := by
    rw [lookupW_modifyW, if_pos rfl, hw1]
    rfl
  by_cases hlen : (visibleWindowsOf (modifyW s' wid fun ww =>
      { ww with isInPopup := false, popupOpen := false }) home).length = 1
  · rw [if_pos hlen]
    have hlw : lookupW (focusWindowInContainer
        (updateContainerVisibility (modifyW s' wid fun ww =>
          { ww with isInPopup := false, popupOpen := false }) home) wid home) wid
        = some { w1 with isInPopup := false, popupOpen := false } := by
      rw [lookupW_focus, lookupW_updateVis, hw2]
    exact ⟨_, hlw, rfl, rfl, rfl, rfl, rfl⟩
  · rw [if_neg hlen]
    have hlw : lookupW (updateContainerVisibility (modifyW s' wid fun ww =>
          { ww with isInPopup := false, popupOpen := false }) home) wid
        = some { w1 with isInPopup := false, popupOpen := false } := by
      rw [lookupW_updateVis, hw2]
    exact ⟨_, hlw, rfl, rfl, rfl, rfl, rfl⟩

theorem onPopupClosed_homeGone {s' : MgrState} {wid : WId} {home : CId} {w1 : WindowData}
    (hwf' : WF0 s') (hw1 : lookupW s' wid = some w1) (hch : lookupC s' home = none) :
    (∃ w2, lookupW (onPopupClosed s' wid home) wid = some w2 ∧
      w2.isInPopup = false ∧ w2.popupOpen = false ∧
      w2.containerId = some (s'.containerIdCounter + 1) ∧
      w2.title = w1.title ∧ w2.content = w1.content) ∧
    (∃ cc, lookupC (onPopupClosed s' wid home) (s'.containerIdCounter + 1) = some cc ∧
      cc.tabs = [wid] ∧ cc.activeWindowId = some wid) := by
  unfold onPopupClosed
  rw [hw1]
  dsimp only
  have hc1 : lookupC (modifyW s' wid fun ww =>
      { ww with isInPopup := false, popupOpen := false }) home = none := hch
  rw [hc1]
  dsimp only
  have hal : alookup s'.containers (s'.containerIdCounter + 1) = none :=
    counter_fresh_lookup hwf'
  have h6 : lookupC ((createNewContainer (modifyW s' wid fun ww =>
        { ww with isInPopup := false, popupOpen := false }) none).1)
      (s'.containerIdCounter + 1)
      = some (newContainerData (modifyW s' wid fun ww =>
          { ww with isInPopup := false, popupOpen := false }) none) := by
    show alookup (s'.containers ++ [(s'.containerIdCounter + 1,
        newContainerData (modifyW s' wid fun ww =>
          { ww with isInPopup := false, popupOpen := false }) none)])
      (s'.containerIdCounter + 1) = _
    rw [alookup_append_none _ hal, alookup_cons, if_pos rfl]
  have hrc : lookupC (renderWindowInContainer
        ((createNewContainer (modifyW s' wid fun ww =>
          { ww with isInPopup := false, popupOpen := false }) none).1)
        wid (s'.containerIdCounter + 1)) (s'.containerIdCounter + 1)
      = some { newContainerData (modifyW s' wid fun ww =>
          { ww with isInPopup := false, popupOpen := false }) none with tabs := [wid] } := by
    rw [lookupC_render, if_pos rfl, h6]
    rfl
  obtain ⟨z, hz⟩ := focus_self hrc
  have hw2 : lookupW ((createNewContainer (modifyW s' wid fun ww =>
        { ww with isInPopup := false, popupOpen := false }) none).1) wid
      = some { w1 with isInPopup := false, popupOpen := false } := by
    show lookupW (modifyW s' wid fun ww =>
      { ww with isInPopup := false, popupOpen := false }) wid = _
    rw [lookupW_modifyW, if_pos rfl, hw1]
    rfl
  have hlw : lookupW (focusWindowInContainer
        (renderWindowInContainer
          ((createNewContainer (modifyW s' wid fun ww =>
            { ww with isInPopup := false, popupOpen := false }) none).1)
          wid (s'.containerIdCounter + 1))
        wid (s'.containerIdCounter + 1)) wid
      = some { w1 with
                isInPopup := false, popupOpen := false,
                containerId := some (s'.containerIdCounter + 1) } := by
    rw [lookupW_focus, lookupW_render, if_pos rfl, hw2]
    rfl
  exact ⟨⟨_, hlw, rfl, rfl, rfl, rfl, rfl⟩, ⟨_, hz, rfl, rfl⟩⟩

/-- Claim C6: detaching a window to a popup sets its `isInPopup` flag and
leaves its title, content and home container id untouched; when the popup
closes, the flag is cleared and the window keeps its home container id if
that container still exists, while if the home container is gone a fresh
container (id `containerIdCounter + 1`) is created holding exactly this
window; title and content survive the round trip. -/
theorem detach_close_roundTrip (s : MgrState) (wid : WId) (w : WindowData) (home : CId)
    (hw : lookupW s wid = some w) (hcid : w.containerId = some home) :
    (∃ w1, lookupW (popOutWindow s wid) wid = some w1 ∧ w1.isInPopup = true ∧
      w1.title = w.title ∧ w1.content = w.content ∧ w1.containerId = some home) ∧
    (∀ ch, lookupC (popOutWindow s wid) home = some ch →
      ∃ w2, lookupW (onPopupClosed (popOutWindow s wid) wid home) wid = some w2 ∧
        w2.isInPopup = false ∧ w2.containerId = some home ∧
        w2.title = w.title ∧ w2.content = w.content) ∧
    (∀ s' w1, WF0 s' → lookupW s' wid = some w1 → lookupC s' home = none →
      ∃ w2, lookupW (onPopupClosed s' wid home) wid = some w2 ∧
        w2.isInPopup = false ∧ w2.title = w1.title ∧ w2.content = w1.content ∧
        w2.containerId = some (s'.containerIdCounter + 1) ∧
        ∃ cc, lookupC (onPopupClosed s' wid home) (s'.containerIdCounter + 1) = some cc ∧
          cc.tabs = [wid] ∧ cc.activeWindowId = some wid) := by
  refine ⟨⟨_, lookupW_popOut hw, rfl, rfl, rfl, hcid⟩, ?_, ?_⟩
  · intro ch hch
    obtain ⟨w2, hlw, hpop, hopen, hcEq, ht, hcnt⟩ :=
      onPopupClosed_homeAlive (lookupW_popOut hw) hch
    exact ⟨w2, hlw, hpop, hcEq.trans hcid, ht, hcnt⟩
  · intro s' w1 hwf' hw1 hch
    obtain ⟨⟨w2, hlw, hpop, _, hcEq, ht, hcnt⟩, ⟨cc, hcc, htabs, hact⟩⟩ :=
      onPopupClosed_homeGone hwf' hw1 hch
    exact ⟨w2, hlw, hpop, ht, hcnt, hcEq, cc, hcc, htabs, hact⟩

/-- Concrete instantiation of the C6 theorem: detaching the only window of a
freshly created one-window state. -/
theorem detach_close_roundTrip_witness :
    lookupW (createWindow (initState 1000 800) "w1" "A" "a") "w1"
      = some { title := "A", content := "a", isMinimized := false, isInPopup := false,
               popupOpen := false, containerId := some 1 } ∧
    (∃ w1, lookupW (popOutWindow (createWindow (initState 1000 800) "w1" "A" "a") "w1") "w1"
        = some w1 ∧ w1.isInPopup = true ∧
      w1.title = ({ title := "A", content := "a", isMinimized := false, isInPopup := false,
                    popupOpen := false, containerId := some 1 } : WindowData).title ∧
      w1.content = ({ title := "A", content := "a", isMinimized := false, isInPopup := false,
                      popupOpen := false, containerId := some 1 } : WindowData).content ∧
      w1.containerId = some 1) := by
  have h := detach_close_roundTrip (createWindow (initState 1000 800) "w1" "A" "a") "w1"
    { title := "A", content := "a", isMinimized := false, isInPopup := false,
      popupOpen := false, containerId := some 1 } 1 (by decide) rfl
  exact ⟨by decide, h.1⟩

/-! ## Claim C5: drop-outside detach and the single-window relocation -/

/-- A state with two windows homed to container 1, one of them popped out:
`windowsOf 1` has two entries but `visibleWindowsOf 1` only one. -/
def c5State : MgrState :=
  popOutWindow (moveWindowToContainer
    (createWindow (createWindow (initState 1000 800) "w1" "A" "a") "w2" "B" "b") "w2" 1) "w2"

/-- Counterexample to claim C5 as stated: the source container holds TWO
windows (`w1` visible, `w2` popped out), yet a drop outside every container
relocates the existing container instead of creating a new one — the
early-exit tests `visibleWindows.length <= 1`, not the number of member
windows.  Dropping `w1` at (50, 50) relocates container 1 to the drop point
(-250, 30) with its membership intact, the container id set stays `[1]` and
the id counter does not advance. -/
theorem popOut_relocation_counterexample :
    (windowsOf c5State 1).length = 2 ∧
    (handleTabDragEnd c5State "w1" 50 50).containers.map Prod.fst = [1] ∧
    (lookupC (handleTabDragEnd c5State "w1" 50 50) 1).map (fun c => (c.left, c.top, c.tabs))
      = some (-250, 30, ["w1", "w2"]) ∧
    (handleTabDragEnd c5State "w1" 50 50).containerIdCounter = c5State.containerIdCounter := by
  decide

/-- Claim C5, amended: when a tab drag ends outside the bounding rectangle of
every container, the branch is decided by the number of VISIBLE (non-popped)
windows of the source container, not its total membership.  With at most one
visible window the existing source container is relocated to the drop
position (pointer offset by (-300, -20)) and constrained to the viewport —
container ids and the window table are unchanged.  With two or more visible
windows a new container with id `containerIdCounter + 1` is created at the
constrained drop position holding exactly the dragged window, and the
dragged window's record now points at it. -/
theorem handleTabDragEnd_detach_spec (s : MgrState) (wid : WId) (mx my : Int)
    (w : WindowData) (scid : CId) (sc : ContainerData)
    (hwf : WF s)
    (houtside : (s.containers.any fun p => decide (rectContains (rectOf p.2) mx my)) = false)
    (hw : lookupW s wid = some w) (hcid : w.containerId = some scid)
    (hsc : lookupC s scid = some sc) :
    ((visibleWindowsOf s scid).length ≤ 1 →
      (handleTabDragEnd s wid mx my).containers.map Prod.fst = s.containers.map Prod.fst ∧
      (handleTabDragEnd s wid mx my).windows = s.windows ∧
      ∃ c', lookupC (handleTabDragEnd s wid mx my) scid = some c' ∧
        (c'.left, c'.top) = constrainToViewport s.viewW s.viewH sc.width (mx - 300) (my - 20) ∧
        c'.tabs = sc.tabs) ∧
    (1 < (visibleWindowsOf s scid).length →
      (handleTabDragEnd s wid mx my).containers.map Prod.fst
        = s.containers.map Prod.fst ++ [s.containerIdCounter + 1] ∧
      (∃ cc, lookupC (handleTabDragEnd s wid mx my) (s.containerIdCounter + 1) = some cc ∧
        cc.tabs = [wid] ∧
        (cc.left, cc.top)
          = constrainToViewport s.viewW s.viewH 600 (mx - 300) (my - 20)) ∧
      (∃ w', lookupW (handleTabDragEnd s wid mx my) wid = some w' ∧
        w'.containerId = some (s.containerIdCounter + 1))) := by
  have heq0 : handleTabDragEnd s wid mx my = popOutWindowToPosition s wid (mx - 300, my - 20) := by
    show (if (s.containers.any fun p => decide (rectContains (rectOf p.2) mx my)) = true
        then s else popOutWindowToPosition s wid (mx - 300, my - 20)) = _
    rw [houtside]
    rfl
  rw [heq0]
  constructor
  · intro hvis
    have heq : popOutWindowToPosition s wid (mx - 300, my - 20) =
        constrainContainer
          (modifyC s scid fun c => { c with left := mx - 300, top := my - 20 }) scid := by
      unfold popOutWindowToPosition
      rw [hw]
      dsimp only
      rw [hcid]
      dsimp only
      rw [hsc]
      dsimp only
      rw [if_pos hvis]
    rw [heq]
    refine ⟨?_, rfl, ?_⟩
    · show ((modifyC (modifyC s scid fun c => { c with left := mx - 300, top := my - 20 })
          scid _).containers.map Prod.fst) = s.containers.map Prod.fst
      rw [modifyC_keys, modifyC_keys]
    · have h1 : lookupC (modifyC s scid fun c =>
          { c with left := mx - 300, top := my - 20 }) scid
          = some { sc with left := mx - 300, top := my - 20 } := by
        rw [lookupC_modifyC, if_pos rfl, hsc]
        rfl
      have h2 : lookupC (constrainContainer (modifyC s scid fun c =>
          { c with left := mx - 300, top := my - 20 }) scid) scid
          = some { sc with
                    left := (constrainToViewport s.viewW s.viewH sc.width
                      (mx - 300) (my - 20)).1,
                    top := (constrainToViewport s.viewW s.viewH sc.width
                      (mx - 300) (my - 20)).2 } := by
        show lookupC (modifyC (modifyC s scid fun c =>
            { c with left := mx - 300, top := my - 20 }) scid _) scid = _
        rw [lookupC_modifyC, if_pos rfl, h1]
        rfl
      exact ⟨_, h2, rfl, rfl⟩
  · intro hvis
    obtain ⟨⟨hWnod, hCnod, hCont, hHomed⟩, hNonempty⟩ := hwf
    have hscne : scid ≠ s.containerIdCounter + 1 := by
      have hle : scid ≤ s.containerIdCounter :=
        (hCont (scid, sc) (mem_of_alookup_eq_some hsc)).2.1
      intro he
      rw [he] at hle
      exact Nat.not_succ_le_self _ hle
    set s1 : MgrState := (createNewContainer s (some (mx - 300, my - 20))).1 with hs1
    set ncid : CId := s.containerIdCounter + 1 with hncid
    set s2 : MgrState := constrainContainer s1 ncid with hs2
    set s3 : MgrState := renderWindowInContainer s2 wid ncid with hs3
    set s4 : MgrState := focusWindowInContainer s3 wid ncid with hs4
    have heq : popOutWindowToPosition s wid (mx - 300, my - 20) =
        (match (visibleWindowsOf s4 scid).head? with
         | some q => focusWindowInContainer s4 q.1 scid
         | none => s4) := by
      unfold popOutWindowToPosition
      rw [hw]
      dsimp only
      rw [hcid]
      dsimp only
      rw [hsc]
      dsimp only
      rw [if_neg (by omega : ¬(visibleWindowsOf s scid).length ≤ 1)]
      rfl
    rw [heq]
    have h61 : lookupC s1 ncid
        = some (newContainerData s (some (mx - 300, my - 20))) := by
      show alookup (s.containers ++ [(ncid, newContainerData s (some (mx - 300, my - 20)))])
        ncid = _
      rw [alookup_append_none _
        (alookup_eq_none_iff.mpr (counter_fresh ⟨hWnod, hCnod, hCont, hHomed⟩)),
        alookup_cons, if_pos rfl]
    have h6 : lookupC s2 ncid
        = some { newContainerData s (some (mx - 300, my - 20)) with
                  left := (constrainToViewport s.viewW s.viewH 600 (mx - 300) (my - 20)).1,
                  top := (constrainToViewport s.viewW s.viewH 600 (mx - 300) (my - 20)).2 } := by
      rw [hs2]
      unfold constrainContainer
      rw [lookupC_modifyC, if_pos rfl, h61]
      rfl
    have hrc : lookupC s3 ncid
        = some { newContainerData s (some (mx - 300, my - 20)) with
                  left := (constrainToViewport s.viewW s.viewH 600 (mx - 300) (my - 20)).1,
                  top := (constrainToViewport s.viewW s.viewH 600 (mx - 300) (my - 20)).2,
                  tabs := [wid] } := by
      rw [hs3, lookupC_render, if_pos rfl, h6]
      rfl
    obtain ⟨z, hz⟩ := focus_self hrc
    have hkeys4 : s4.containers.map Prod.fst = s.containers.map Prod.fst ++ [ncid] := by
      rw [hs4, focus_ckeys, hs3, render_ckeys, hs2]
      show ((modifyC s1 ncid _).containers.map Prod.fst) = _
      rw [modifyC_keys]
      show ((s.containers ++ [(ncid, newContainerData s (some (mx - 300, my - 20)))]).map
        Prod.fst) = _
      rw [List.map_append]
      rfl
    have hw2 : lookupW s2 wid = some w := hw
    have hlw4 : lookupW s4 wid = some { w with containerId := some ncid } := by
      rw [hs4, lookupW_focus, hs3, lookupW_render, if_pos rfl, hw2]
      rfl
    rcases (visibleWindowsOf s4 scid).head? with _ | q
    · refine ⟨hkeys4, ⟨_, hz, rfl, rfl⟩, ⟨_, hlw4, rfl⟩⟩
    · have hz5 : lookupC (focusWindowInContainer s4 q.1 scid) ncid = lookupC s4 ncid :=
        lookupC_focus s4 q.1 scid ncid (fun h => hscne h.symm)
      have hlw5 : lookupW (focusWindowInContainer s4 q.1 scid) wid = lookupW s4 wid :=
        lookupW_focus s4 q.1 scid wid
      refine ⟨?_, ⟨_, hz5.trans hz, rfl, rfl⟩, ⟨_, hlw5.trans hlw4, rfl⟩⟩
      rw [focus_ckeys]
      exact hkeys4

/-- Concrete instantiation of the amended C5 theorem on the two-window,
one-popped state: the relocation branch applies and no container is
created. -/
theorem handleTabDragEnd_detach_spec_witness :
    WF c5State ∧
    (visibleWindowsOf c5State 1).length ≤ 1 ∧
    (handleTabDragEnd c5State "w1" 50 50).containers.map Prod.fst
      = c5State.containers.map Prod.fst := by
  have h := handleTabDragEnd_detach_spec c5State "w1" 50 50
    { title := "A", content := "a", isMinimized := false, isInPopup := false,
      popupOpen := false, containerId := some 1 } 1
    { tabs := ["w1", "w2"], activeWindowId := some "w1", isMinimized := false,
      visible := true, left := 200, top := 200, width := 600, height := 400,
      zIndex := 10004 } (by decide) (by decide) (by decide) rfl (by decide)
  exact ⟨by decide, by decide, (h.1 (by decide)).1⟩

/-! ## Claim C2: mergeContainers and the enumeration order of moved windows -/

/-- A state whose container 1 has tab order `["w1", "w3", "w2"]` (after a
tab reorder) while its windows were registered in the order
`w1, w2, w3` — the tab order and the window-map insertion order disagree. -/
def c2State : MgrState :=
  reorderTabDrop (moveWindowToContainer (moveWindowToContainer
    (createWindow (createWindow (createWindow (createWindow (initState 1000 800)
      "w1" "A" "a") "w2" "B" "b") "w3" "C" "c") "w4" "D" "d") "w2" 1) "w3" 1) "w3" "w2" true

/-- Counterexample to claim C2 as stated: `mergeContainers` enumerates the
source's windows from the windows map (`Array.from(this.windows.values())`,
registration order), not from the source container's tab order, so the moved
windows are NOT appended "preserving their order within A".  Container 1's
tab order is `["w1", "w3", "w2"]`, but merging it into container 4 yields
tabs `["w4", "w1", "w2", "w3"]`, not `["w4"] ++ ["w1", "w3", "w2"]`. -/
theorem mergeContainers_order_counterexample :
    (lookupC c2State 1).map ContainerData.tabs = some ["w1", "w3", "w2"] ∧
    (lookupC c2State 4).map ContainerData.tabs = some ["w4"] ∧
    (lookupC (mergeContainers c2State 1 4) 4).map ContainerData.tabs
      = some ["w4", "w1", "w2", "w3"] ∧
    (lookupC (mergeContainers c2State 1 4) 4).map ContainerData.tabs
      ≠ some ("w4" :: ["w1", "w3", "w2"]) := by
  decide

theorem filter_amodify_drop (W : List (WId × WindowData)) (x : WId)
    (g : WindowData → WindowData) (P : WId × WindowData → Bool)
    (hgx : ∀ w, P (x, g w) = false) :
    (amodify W x g).filter P = (W.filter P).filter fun q => !(q.1 == x) := by
  induction W with
  | nil => rfl
  | cons p rest ih =>
    obtain ⟨a, b⟩ := p
    by_cases hax : a = x
    · subst hax
      have hstep : amodify ((a, b) :: rest) a g = (a, g b) :: amodify rest a g := by
        show ((if a = a then (a, g b) else (a, b)) :: amodify rest a g) = _
        rw [if_pos rfl]
      rw [hstep, List.filter_cons, List.filter_cons]
      rw [hgx b]
      by_cases hP : P (a, b) = true
      · rw [if_pos hP]
        simp only [Bool.false_eq_true, if_false]
        rw [List.filter_cons]
        simp only [beq_self_eq_true, Bool.not_true, Bool.false_eq_true, if_false]
        exact ih
      · rw [if_neg hP]
        simp only [Bool.false_eq_true, if_false]
        exact ih
    · have hstep : amodify ((a, b) :: rest) x g = (a, b) :: amodify rest x g := by
        show ((if a = x then (a, g b) else (a, b)) :: amodify rest x g) = _
        rw [if_neg hax]
      rw [hstep, List.filter_cons, List.filter_cons]
      by_cases hP : P (a, b) = true
      · rw [if_pos hP, if_pos hP, List.filter_cons]
        have hbeq : ((a, b).1 == x) = false := beq_eq_false_iff_ne.mpr hax
        rw [hbeq]
        simp only [Bool.not_false, if_true]
        rw [ih]
      · rw [if_neg hP, if_neg hP]
        exact ih

theorem windowsOf_keys_nodup (s : MgrState) (cid : CId)
    (h : (s.windows.map Prod.fst).Nodup) :
    ((windowsOf s cid).map Prod.fst).Nodup :=
  h.sublist ((List.filter_sublist _).map Prod.fst)

theorem cleanup_windows (u : MgrState) (cid : CId) :
    (cleanupContainerIfEmpty u cid).windows = u.windows := by
  unfold cleanupContainerIfEmpty
  rcases lookupC u cid with _ | c
  · rfl
  · dsimp only
    by_cases hemp : (windowsOf u cid).isEmpty = true
    · rw [if_pos hemp]
    · rw [if_neg hemp]
      exact updateVis_windows u cid

theorem move_char (u : MgrState) (x : WId) (scid tcid : CId) (wx : WindowData)
    (cu tcu : ContainerData) (hwf : WF u) (hne : scid ≠ tcid)
    (hx : lookupW u x = some wx) (hxc : wx.containerId = some scid)
    (hscu : lookupC u scid = some cu) (htcu : lookupC u tcid = some tcu) :
    (∃ z, lookupC (moveWindowToContainer u x tcid) tcid
        = some { tcu with tabs := tcu.tabs ++ [x], activeWindowId := some x, zIndex := z }) ∧
    lookupW (moveWindowToContainer u x tcid) x
        = some { wx with containerId := some tcid } ∧
    (∀ y, y ≠ x → lookupW (moveWindowToContainer u x tcid) y = lookupW u y) ∧
    windowsOf (moveWindowToContainer u x tcid) scid
        = (windowsOf u scid).filter (fun q => !(q.1 == x)) ∧
    ((windowsOf u scid).filter (fun q => !(q.1 == x)) = [] →
        lookupC (moveWindowToContainer u x tcid) scid = none) ∧
    ((windowsOf u scid).filter (fun q => !(q.1 == x)) ≠ [] →
        ∃ cu', lookupC (moveWindowToContainer u x tcid) scid = some cu') := by
  have heq : moveWindowToContainer u x tcid
      = cleanupContainerIfEmpty
          (focusWindowInContainer (renderWindowInContainer u x tcid) x tcid) scid := by
    unfold moveWindowToContainer
    rw [hx]
    dsimp only
    rw [hxc]
    dsimp only
    rw [hscu, htcu]
  rw [heq]
  set f : MgrState := focusWindowInContainer (renderWindowInContainer u x tcid) x tcid with hf
  have hxt : x ∉ tcu.tabs :=
    tab_unique hwf.1 hx hxc (mem_of_alookup_eq_some htcu) (fun h => hne h.symm)
  have hrt : lookupC (renderWindowInContainer u x tcid) tcid
      = some { tcu with tabs := tcu.tabs ++ [x] } := by
    rw [lookupC_render, if_pos rfl, htcu]
    simp only [Option.map_some', List.erase_of_not_mem hxt]
  obtain ⟨z, hz⟩ := focus_self hrt
  have hwindows : f.windows
      = amodify u.windows x (fun w => { w with containerId := some tcid }) := by
    rw [hf, focus_windows]
    rfl
  have hWfilter : windowsOf f scid = (windowsOf u scid).filter (fun q => !(q.1 == x)) := by
    show (f.windows.filter fun q => decide (q.2.containerId = some scid))
      = ((u.windows.filter fun q => decide (q.2.containerId = some scid)).filter
          fun q => !(q.1 == x))
    rw [hwindows]
    exact filter_amodify_drop u.windows x _ _ (fun w =>
      decide_eq_false (fun h => hne (Option.some.inj h).symm))
  have hfscid : lookupC f scid = some { cu with tabs := cu.tabs.erase x } := by
    rw [hf, lookupC_focus _ _ _ _ hne, lookupC_render, if_neg hne, hscu]
    rfl
  have hvt : lookupC (cleanupContainerIfEmpty f scid) tcid = lookupC f tcid := by
    by_cases hemp : windowsOf f scid = []
    · rw [cleanup_delete hfscid hemp]
      show alookup (adelete f.containers scid) tcid = _
      rw [alookup_adelete, if_neg (fun h => hne h.symm)]
      rfl
    · rw [cleanup_keep hfscid hemp]
      exact lookupC_updateVis_ne f scid tcid (fun h => hne h.symm)
  have hvw : (cleanupContainerIfEmpty f scid).windows = u.windows.map
      (fun p => if p.1 = x then (p.1, { p.2 with containerId := some tcid }) else p) := by
    rw [cleanup_windows, hwindows]
    rfl
  refine ⟨⟨z, hvt.trans hz⟩, ?_, ?_, ?_, ?_, ?_⟩
  · show alookup (cleanupContainerIfEmpty f scid).windows x = _
    rw [cleanup_windows, hwindows, alookup_amodify, if_pos rfl]
    have hx2 : alookup u.windows x = some wx := hx
    rw [hx2]
    rfl
  · intro y hy
    show alookup (cleanupContainerIfEmpty f scid).windows y = alookup u.windows y
    rw [cleanup_windows, hwindows, alookup_amodify, if_neg hy]
  · rw [windowsOf_eq_of_windows_eq (cleanup_windows f scid) scid]
    exact hWfilter
  · intro h5
    have hemp : windowsOf f scid = [] := hWfilter.trans h5
    rw [cleanup_delete hfscid hemp]
    show alookup (adelete f.containers scid) scid = none
    rw [alookup_adelete, if_pos rfl]
  · intro h6
    have hemp : windowsOf f scid ≠ [] := by
      rw [hWfilter]
      exact h6
    rw [cleanup_keep hfscid hemp]
    exact ⟨_, lookupC_updateVis_self hfscid⟩

theorem merge_fold_inv (scid tcid : CId) (hne : scid ≠ tcid) :
    ∀ (E : List (WId × WindowData)) (u : MgrState) (tcu : ContainerData),
      WF u →
      windowsOf u scid = E →
      lookupC u tcid = some tcu →
      (E ≠ [] → ∃ cu, lookupC u scid = some cu) →
      (∃ tcv, lookupC ((E.map Prod.fst).foldl
            (fun st wid => moveWindowToContainer st wid tcid) u) tcid = some tcv ∧
          tcv.tabs = tcu.tabs ++ E.map Prod.fst) ∧
      (E ≠ [] → lookupC ((E.map Prod.fst).foldl
            (fun st wid => moveWindowToContainer st wid tcid) u) scid = none) ∧
      (∀ q ∈ E, ∃ w', lookupW ((E.map Prod.fst).foldl
            (fun st wid => moveWindowToContainer st wid tcid) u) q.1 = some w' ∧
          w'.containerId = some tcid) ∧
      (∀ y, (∀ q ∈ E, q.1 ≠ y) → lookupW ((E.map Prod.fst).foldl
            (fun st wid => moveWindowToContainer st wid tcid) u) y = lookupW u y) ∧
      WF ((E.map Prod.fst).foldl (fun st wid => moveWindowToContainer st wid tcid) u) := by
  intro E
  induction E with
  | nil =>
      intro u tcu hwf hE htcu hEne
      refine ⟨⟨tcu, htcu, (List.append_nil _).symm⟩, ?_, ?_, ?_, hwf⟩
      · intro h
        exact absurd rfl h
      · intro q hq
        exact absurd hq (List.not_mem_nil q)
      · intro y _
        rfl
  | cons p E' ih =>
      intro u tcu hwf hE htcu hEne
      obtain ⟨x, wx⟩ := p
      have hxm : (x, wx) ∈ windowsOf u scid := by
        rw [hE]
        exact List.mem_cons_self _ _
      obtain ⟨hxw, hxc⟩ := mem_windowsOf_iff.mp hxm
      have hx : lookupW u x = some wx := alookup_eq_some_of_mem hwf.1.1 hxw
      obtain ⟨cu, hscu⟩ := hEne (List.cons_ne_nil _ _)
      obtain ⟨⟨z, hvt⟩, hvx, hvy, hWv, h5, h6⟩ :=
        move_char u x scid tcid wx cu tcu hwf hne hx hxc hscu htcu
      have hnodE : (x :: E'.map Prod.fst).Nodup := by
        have h0 := windowsOf_keys_nodup u scid hwf.1.1
        rw [hE] at h0
        exact h0
      have hxnotin : x ∉ E'.map Prod.fst := (List.nodup_cons.mp hnodE).1
      have hfilterE : E'.filter (fun q => !(q.1 == x)) = E' := by
        refine List.filter_eq_self.mpr ?_
        intro q hq
        have hqx : q.1 ≠ x := by
          intro h
          exact hxnotin (h ▸ List.mem_map.mpr ⟨q, hq, rfl⟩)
        rw [beq_eq_false_iff_ne.mpr hqx]
        rfl
      have hWv' : windowsOf (moveWindowToContainer u x tcid) scid = E' := by
        rw [hWv, hE, List.filter_cons]
        simp only [beq_self_eq_true, Bool.not_true, Bool.false_eq_true, if_false]
        exact hfilterE
      have hfilterCons : ((windowsOf u scid).filter fun q => !(q.1 == x)) = E' := by
        rw [hE, List.filter_cons]
        simp only [beq_self_eq_true, Bool.not_true, Bool.false_eq_true, if_false]
        exact hfilterE
      have hwf1 : WF (moveWindowToContainer u x tcid) :=
        WF_moveWindowToContainer u x tcid hwf
      obtain ⟨⟨tcv, htcv, htabs⟩, hscnone, hproc, hunch, hwfv⟩ :=
        ih (moveWindowToContainer u x tcid)
          { tcu with tabs := tcu.tabs ++ [x], activeWindowId := some x, zIndex := z }
          hwf1 hWv' hvt
          (fun hne' => h6 (by rw [hfilterCons]; exact hne'))
      simp only [List.map_cons, List.foldl_cons]
      refine ⟨⟨tcv, htcv, ?_⟩, ?_, ?_, ?_, hwfv⟩
      · rw [htabs]
        show (tcu.tabs ++ [x]) ++ E'.map Prod.fst = tcu.tabs ++ x :: E'.map Prod.fst
        rw [List.append_assoc]
        rfl
      · intro _
        by_cases hE' : E' = []
        · subst hE'
          simp only [List.map_nil, List.foldl_nil]
          exact h5 (by rw [hfilterCons])
        · exact hscnone hE'
      · intro q hq
        rcases List.mem_cons.mp hq with rfl | hq'
        · have hxE' : ∀ q' ∈ E', q'.1 ≠ x := by
            intro q' hq' h
            exact hxnotin (h ▸ List.mem_map.mpr ⟨q', hq', rfl⟩)
          refine ⟨{ wx with containerId := some tcid }, ?_, rfl⟩
          rw [hunch x hxE']
          exact hvx
        · exact hproc q hq'
      · intro y hy
        have hyE' : ∀ q ∈ E', q.1 ≠ y := fun q hq => hy q (List.mem_cons_of_mem _ hq)
        rw [hunch y hyE']
        exact hvy y (fun h => hy (x, wx) (List.mem_cons_self _ _) h.symm)

/-- Claim C2, amended: for distinct live containers, `mergeContainers`
appends to the target's tab sequence every window homed to the source in
WINDOW-MAP REGISTRATION ORDER (`Array.from(this.windows.values())`), not in
the source's tab order; afterwards the source container is deleted, every
moved window's `containerId` is the target, windows not homed to the source
are untouched, the target's active window is the first moved window in that
enumeration order, and the target's z-index is strictly above every other
container's.  A self-merge is a no-op. -/
theorem mergeContainers_spec (s : MgrState) (scid tcid : CId) (sc tc : ContainerData)
    (hwf : WF s) (hne : scid ≠ tcid)
    (hsc : lookupC s scid = some sc) (htc : lookupC s tcid = some tc) :
    (∃ tc', lookupC (mergeContainers s scid tcid) tcid = some tc' ∧
      tc'.tabs = tc.tabs ++ (windowsOf s scid).map Prod.fst ∧
      (∀ w0 rest, (windowsOf s scid).map Prod.fst = w0 :: rest →
        tc'.activeWindowId = some w0) ∧
      (∀ p ∈ (mergeContainers s scid tcid).containers, p.1 ≠ tcid →
        p.2.zIndex < tc'.zIndex)) ∧
    lookupC (mergeContainers s scid tcid) scid = none ∧
    (∀ q ∈ windowsOf s scid, ∃ w',
      lookupW (mergeContainers s scid tcid) q.1 = some w' ∧ w'.containerId = some tcid) ∧
    (∀ y, (∀ q ∈ windowsOf s scid, q.1 ≠ y) →
      lookupW (mergeContainers s scid tcid) y = lookupW s y) ∧
    mergeContainers s scid scid = s := by
  have hself : mergeContainers s scid scid = s := by
    unfold mergeContainers
    rw [if_pos rfl]
  have hnotnil : windowsOf s scid ≠ [] :=
    (windowsOf_ne_nil_iff hwf.1 hsc).mpr (hwf.2 (scid, sc) (mem_of_alookup_eq_some hsc))
  rcases hE : windowsOf s scid with _ | ⟨q0, E'⟩
  · exact absurd hE hnotnil
  · obtain ⟨⟨tcv, htcv, htabs⟩, hscnone, hproc, hunch, hwfv⟩ :=
      merge_fold_inv scid tcid hne (q0 :: E') s tc hwf hE htc (fun _ => ⟨sc, hsc⟩)
    have heq : mergeContainers s scid tcid =
        focusWindowInContainer
          (((q0 :: E').map Prod.fst).foldl
            (fun st wid => moveWindowToContainer st wid tcid) s) q0.1 tcid := by
      unfold mergeContainers
      rw [if_neg hne, hsc, htc]
      dsimp only
      rw [hE]
      rfl
    set v : MgrState := ((q0 :: E').map Prod.fst).foldl
      (fun st wid => moveWindowToContainer st wid tcid) s with hv
    have heq2 : focusWindowInContainer v q0.1 tcid =
        bringContainerToFront
          (modifyC v tcid fun c => { c with activeWindowId := some q0.1 }) tcid := by
      unfold focusWindowInContainer
      rw [htcv]
    set s2 : MgrState := modifyC v tcid fun c => { c with activeWindowId := some q0.1 }
      with hs2
    set maxZ : Int := s2.containers.foldl (fun m p => max m p.2.zIndex) 10000 with hmaxZ
    have hm : lookupC (mergeContainers s scid tcid) tcid
        = some { tcv with activeWindowId := some q0.1, zIndex := maxZ + 1 } := by
      rw [heq, heq2]
      unfold bringContainerToFront
      dsimp only
      rw [lookupC_modifyC, if_pos rfl, lookupC_modifyC, if_pos rfl, htcv]
      rfl
    refine ⟨⟨_, hm, htabs, ?_, ?_⟩, ?_, ?_, ?_, hself⟩
    · intro w0 rest h
      simp only [List.map_cons] at h
      injection h with h1 h2
      show some q0.1 = some w0
      rw [h1]
    · intro p hp hpne
      have hp2 : p ∈ amodify s2.containers tcid
          (fun c => { c with zIndex := maxZ + 1 }) := by
        rw [heq, heq2] at hp
        exact hp
      obtain ⟨q', hq', hfq'⟩ := mem_amodify_iff.mp hp2
      by_cases hq'eq : q'.1 = tcid
      · exfalso
        apply hpne
        rw [hfq', if_pos hq'eq]
        exact hq'eq
      · have hpq' : p = q' := by rw [hfq', if_neg hq'eq]
        rw [hpq']
        show q'.2.zIndex < maxZ + 1
        have hle := foldl_max_mem_le s2.containers 10000 q' hq'
        omega
    · rw [heq, lookupC_focus v q0.1 tcid scid hne]
      exact hscnone (List.cons_ne_nil _ _)
    · intro q hq
      obtain ⟨w', hw', hc'⟩ := hproc q hq
      refine ⟨w', ?_, hc'⟩
      rw [heq, lookupW_focus]
      exact hw'
    · intro y hy
      rw [heq, lookupW_focus]
      exact hunch y hy

/-- Concrete instantiation of the amended C2 theorem on the reordered
four-window state: the target's tab list is the old target tabs followed by
the source windows in registration order. -/
theorem mergeContainers_spec_witness :
    WF c2State ∧
    (lookupC (mergeContainers c2State 1 4) 4).map ContainerData.tabs
      = some ("w4" :: (windowsOf c2State 1).map Prod.fst) := by
  have h := mergeContainers_spec c2State 1 4
    { tabs := ["w1", "w3", "w2"], activeWindowId := some "w3", isMinimized := false,
      visible := true, left := 200, top := 200, width := 600, height := 400,
      zIndex := 10006 }
    { tabs := ["w4"], activeWindowId := some "w4", isMinimized := false,
      visible := true, left := 290, top := 290, width := 600, height := 400,
      zIndex := 10004 }
    (by decide) (by decide) (by decide) (by decide)
  obtain ⟨⟨tc', hm, htabs, _, _⟩, _⟩ := h
  refine ⟨by decide, ?_⟩
  rw [hm, Option.map_some', htabs]
  rfl
